import Mathlib

/-!
Verification development for the Autonomous Budget Travel Planner's
orchestrator core (main.py, agents/planner_agent.py, agents/replanner_agent.py,
agents/budget_review_agent.py).

The embedding models Python values with an inductive `PyVal`, Python dicts as
insertion-ordered association lists, and Python floats as exact rationals
(`ℚ`); `round(x, 2)` is modelled by exact round-half-to-even on hundredths
(`pyRound2`).  The float constant `0.20` is modelled by the exact rational
`20/100`.  `float(...)` conversion is modelled by `toNum`, which accepts
numbers and booleans; the agents under verification only ever convert numbers
and booleans, so string parsing is conservatively modelled as a conversion
failure.

The individual agents (flight/hotel/food/activities estimators, the itinerary
text generator and the LLM planning capabilities) are external collaborators;
the orchestrator theorems quantify over an `AgentEnv` oracle that supplies
each agent invocation's outcome (a returned mapping or a raised exception),
the nondeterministic collection order of a parallel batch, and the replanner's
result, which covers every behaviour of the concrete agents.
-/

/-- A Python runtime value, as far as the orchestrator inspects values:
numbers (floats/ints as exact rationals), strings (also standing for message
objects, whose payload the orchestrator never inspects), booleans, lists,
dicts (insertion-ordered association lists) and None. -/
inductive PyVal where
  | num (q : ℚ)
  | str (s : String)
  | bool (b : Bool)
  | list (l : List PyVal)
  | dict (entries : List (String × PyVal))
  | none

/-- A Python dict with string keys, in insertion order. -/
abbrev PyDict := List (String × PyVal)

/-- Dict lookup `d.get(k)` / `d[k]`: value at the first (authoritative)
occurrence of the key. -/
def dget : PyDict → String → Option PyVal
  | [], _ => Option.none
  | (k', v) :: rest, k => if k' = k then some v else dget rest k

/-- Dict assignment `d[k] = v`: replace in place at the first occurrence of
the key, otherwise append at the end (Python insertion-order semantics). -/
def dset : PyDict → String → PyVal → PyDict
  | [], k, v => [(k, v)]
  | (k', v') :: rest, k, v =>
    if k' = k then (k, v) :: rest else (k', v') :: dset rest k v

/-- Python `d.setdefault(k, v)`: insert `v` only when the key is absent. -/
def dsetdefault (d : PyDict) (k : String) (v : PyVal) : PyDict :=
  match dget d k with
  | some _ => d
  | Option.none => dset d k v

/-- Whether a value `isinstance(·, dict)`. -/
def isDict : PyVal → Bool
  | .dict _ => true
  | _ => false

/-- Python truthiness (only needed for the `x or 0.0` readings). -/
def pyFalsy : PyVal → Bool
  | .num q => q = 0
  | .bool b => !b
  | .str s => s.isEmpty
  | .list l => l.isEmpty
  | .dict d => d.isEmpty
  | .none => true

/-- Python `float(v)` on the values the agents actually convert: numbers and
booleans succeed, everything else raises (modelled as `Option.none`). -/
def toNum : PyVal → Option ℚ
  | .num q => some q
  | .bool b => some (if b then 1 else 0)
  | _ => Option.none

/-- `float(state.get(k, 0.0))`: an absent key reads as `0.0`; a present value
converts via `toNum` (conversion failure = raised exception = `none`). -/
def getMoney (st : PyDict) (k : String) : Option ℚ :=
  match dget st k with
  | Option.none => some 0
  | some v => toNum v

/-- `float(state.get(k, 0.0) or 0.0)` as used by the budget-review agent:
falsy values read as `0.0`.  A truthy non-numeric value would raise in
Python; that case is unreachable for the money-typed states in all theorems
below and is modelled as `0`. -/
def moneyOr0 (st : PyDict) (k : String) : ℚ :=
  match dget st k with
  | Option.none => 0
  | some v => if pyFalsy v then 0 else (toNum v).getD 0

/-! ## State Merger (main.py, merge_partial_state, lines 61-80) -/

/-- Merge a single key of a partial result into the run state.  `messages`
and `trace` are appended to (after a `setdefault` to `[]`); a list value is
extended element-wise, any other value is appended as one element.  When the
existing log value is not a list Python would raise `AttributeError`;
that is modelled as `Option.none` (merge aborts). Every other key is
overwritten. -/
def mergeItem (st : PyDict) (k : String) (v : PyVal) : Option PyDict :=
  if k = "messages" ∨ k = "trace" then
    let st1 := dsetdefault st k (.list [])
    match dget st1 k with
    | some (.list cur) =>
      match v with
      | .list l => some (dset st1 k (.list (cur ++ l)))
      | w => some (dset st1 k (.list (cur ++ [w])))
    | _ => Option.none
  else
    some (dset st k v)

/-- Merge the items of a dict partial result, left to right. -/
def mergeItems : PyDict → List (String × PyVal) → Option PyDict
  | st, [] => some st
  | st, (k, v) :: rest =>
    match mergeItem st k v with
    | some st1 => mergeItems st1 rest
    | Option.none => Option.none

/-- merge_partial_state (main.py lines 61-80): a non-dict partial is ignored
(`if not isinstance(partial, dict): return`); a dict partial is merged key by
key. -/
def merge_partial_state (st : PyDict) (part : PyVal) : Option PyDict :=
  match part with
  | .dict items => mergeItems st items
  | _ => some st

/-- Total wrapper used by the orchestrator loop.  On every state the
orchestrator actually reaches, `merge_partial_state` succeeds (the logs are
lists by initialization, see `initState`); the fallback to the unchanged
state models the unreachable exception branch. -/
def mergeRun (st : PyDict) (part : PyVal) : PyDict :=
  (merge_partial_state st part).getD st

/-! ## Budget recomputation (main.py lines 163-171, 229-237, 287-295) -/

/-- The recomputation `state["remaining_budget"] = state.get("budget", 0.0) -
sum([float(state.get(c, 0.0)) for c in costs])` performed after every merge
point, wrapped in `try/except: pass`: when any read fails to convert, the
state is left unchanged. -/
def recompute (st : PyDict) : PyDict :=
  match toNum ((dget st "budget").getD (.num 0)),
        getMoney st "flight_cost", getMoney st "accommodation_cost",
        getMoney st "food_cost", getMoney st "activities_cost" with
  | some b, some f, some a, some fo, some ac =>
    dset st "remaining_budget" (.num (b - (f + a + fo + ac)))
  | _, _, _, _, _ => st

/-! ## Python rounding -/

/-- Python `round(q)`: round half to even. -/
def pyRoundInt (q : ℚ) : ℤ :=
  if q - ⌊q⌋ < 1 / 2 then ⌊q⌋
  else if q - ⌊q⌋ > 1 / 2 then ⌊q⌋ + 1
  else if ⌊q⌋ % 2 = 0 then ⌊q⌋ else ⌊q⌋ + 1

/-- Python `round(q, 2)`: round half to even on hundredths. -/
def pyRound2 (q : ℚ) : ℚ := (pyRoundInt (q * 100) : ℚ) / 100

/-! ## Budget-review agent (agents/budget_review_agent.py) -/

/-- budget_review_agent (agents/budget_review_agent.py lines 14-144).
`sugg` abstracts the advisory suggestion text (LLM output or deterministic
fallback); the message strings carry interpolated amounts in the source and
are abstracted to fixed text, since nothing downstream inspects them.  The
`st.session_state` memoization cache is modelled as absent (the spec treats
it as a pure memoization layer).  Note the source's `costs` dict collects
only `flight_cost`, `accommodation_cost` and `activities_cost` — `food_cost`
is not a candidate for the reduction; `max(costs, key=costs.get)` returns the
first key attaining the maximum, in insertion order. -/
def budget_review_agent (sugg : String) (st : PyDict) : PyVal :=
  let remaining : ℚ :=
    match dget st "remaining_budget" with
    | Option.none => 0
    | some v => (toNum v).getD 0
  if remaining ≥ 0 then
    .dict [("is_budget_met", .bool true),
           ("messages", .list [.str "Budget review skipped: plan already within budget."]),
           ("next_action", .str "ITINERARY_PLANNER")]
  else
    let fc := moneyOr0 st "flight_cost"
    let ac := moneyOr0 st "accommodation_cost"
    let act := moneyOr0 st "activities_cost"
    let largestKey : String :=
      if fc ≥ ac ∧ fc ≥ act then "flight_cost"
      else if ac ≥ act then "accommodation_cost"
      else "activities_cost"
    let largest : ℚ :=
      if fc ≥ ac ∧ fc ≥ act then fc
      else if ac ≥ act then ac
      else act
    let cut := pyRound2 (largest * (20 / 100))
    let newCost := max 0 (largest - cut)
    let food := moneyOr0 st "food_cost"
    let b := moneyOr0 st "budget"
    let recomputedSum :=
      (if largestKey = "flight_cost" then newCost else fc)
      + (if largestKey = "accommodation_cost" then newCost else ac)
      + (if largestKey = "activities_cost" then newCost else act)
      + food
    let newRemaining := pyRound2 (b - recomputedSum)
    let met : Bool := newRemaining ≥ 0
    .dict [(largestKey, .num newCost),
           ("suggestion", .str sugg),
           ("action", .str "Reduced largest expense by 20 percent."),
           ("remaining_budget", .num newRemaining),
           ("is_budget_met", .bool met),
           ("messages", .list [.str "Budget review applied.",
                               .str "Recomputed remaining budget."]),
           ("next_action", .str (if met then "ITINERARY_PLANNER" else "BUDGET_REVIEW"))]

/-- The entries of a dict value (empty for non-dicts); used to state facts
about the partial results the agents return. -/
def pvEntries : PyVal → PyDict
  | .dict d => d
  | _ => []

/-! ## Plan and task model (models/planner_state.py, spec section 3) -/

/-- One plan step (a dict in the source; all fields present in every plan the
planner, replanner or deterministic fallback produces). -/
structure PlanTask where
  task_id : String
  node : String
  inputs : PyDict
  parallel : Bool
  on_success : String
  on_failure : String

/-- A plan: opaque identifier plus an ordered task list. -/
structure Plan where
  plan_id : String
  tasks : List PlanTask

/-- One node's manifest entry, with the `.get(..., default)` defaults already
applied: `manifest.get(node, {}).get("retry_strategy", {}).get("max_retries", 0)`
and `manifest.get(node, {}).get("fallback_providers", [])`.  A manifest is a
total function from node names (absent nodes map to the defaults). -/
structure NodeSpec where
  max_retries : ℤ
  fallback_providers : List String

/-! ## Replanner (agents/replanner_agent.py) -/

/-- wrap (agents/replanner_agent.py lines 28-32): stamp a task list with a
fresh plan id derived from the UTC wall clock at second granularity; `now`
is the formatted timestamp string. -/
def wrapPlan (now : String) (ts : List PlanTask) : Plan :=
  { plan_id := "replan_" ++ now, tasks := ts }

/-- find_task (lines 34-35): first task with the given id, if any. -/
def find_task (ts : List PlanTask) (tid : String) : Option PlanTask :=
  ts.find? (fun t => t.task_id = tid)

/-- make_retry (lines 37-45). -/
def make_retry (t : PlanTask) : PlanTask :=
  { task_id := t.task_id ++ "_retry"
    node := t.node
    inputs := dset t.inputs "_retry_relax" (.bool true)
    parallel := false
    on_success := t.on_success
    on_failure := "BUDGET_REVIEW" }

/-- make_fallback (lines 47-55). -/
def make_fallback (t : PlanTask) (fallbackNode : String) : PlanTask :=
  { task_id := t.task_id ++ "_fallback"
    node := fallbackNode
    inputs := dset t.inputs "_from_fallback" (.bool true)
    parallel := false
    on_success := t.on_success
    on_failure := "BUDGET_REVIEW" }

/-- replanner_agent (agents/replanner_agent.py lines 59-84): the
deterministic decision rules (retry, else first fallback provider, else drop
the failing task).  This is the branch taken when the LLM is not configured;
the LLM branch (lines 99-127) falls through to the identical rules
(lines 129-152) whenever the generation capability fails, and is otherwise an
external collaborator.  Only `failing_task_id` of the failure context is
consulted. -/
def replanner_agent (manifest : String → NodeSpec) (failing_id : String)
    (plan : Plan) (now : String) : Plan :=
  match find_task plan.tasks failing_id with
  | Option.none => wrapPlan now plan.tasks
  | some ft =>
    if (manifest ft.node).max_retries > 0 then
      wrapPlan now (plan.tasks.map (fun t =>
        if t.task_id = failing_id then make_retry t else t))
    else
      match (manifest ft.node).fallback_providers with
      | fb :: _ => wrapPlan now (plan.tasks.map (fun t =>
          if t.task_id = failing_id then make_fallback t fb else t))
      | [] => wrapPlan now (plan.tasks.filter (fun t => ¬ t.task_id = failing_id))

/-! ## Planner structural checks (agents/planner_agent.py) -/

/-- The structural part of the planner's plan check (lines 47-49): the LLM
result must be a dict with a `tasks` key holding a list. -/
def plannerStructOk (p : PyVal) : Bool :=
  match p with
  | .dict d =>
    match dget d "tasks" with
    | some (.list _) => true
    | _ => false
  | _ => false

/-- The task count used by the oversize check (line 51): `len(plan.get("tasks", []))`. -/
def plannerTasksLen (p : PyVal) : ℕ :=
  match p with
  | .dict d =>
    match dget d "tasks" with
    | some (.list ts) => ts.length
    | _ => 0
  | _ => 0

/-- planner_agent's selection logic (agents/planner_agent.py lines 22-60):
given the LLM generation result (`Option.none` when the LLM is disabled,
failed, timed out or returned unparseable output) choose between the LLM plan
and the deterministic fallback plan.  Structurally invalid plans and plans
with more than 8 tasks are replaced by the fallback; nothing else is
checked. -/
def planner_agent_select (llmResult : Option PyVal) (fallbackPlan : PyVal) : PyVal :=
  match llmResult with
  | Option.none => fallbackPlan
  | some p =>
    if plannerStructOk p then
      if plannerTasksLen p > 8 then fallbackPlan else p
    else fallbackPlan

/-- The deterministic FALLBACK_PLAN (agents/planner_agent.py lines 11-20),
as the dict value the planner returns; the goal fields are the user-goal
entries spliced into the task inputs, `now` the timestamp suffix of the
plan id. -/
def fallback_plan (city city_iata start_date end_date duration_days budget : PyVal)
    (now : String) : PyVal :=
  .dict [("plan_id", .str ("fallback_" ++ now)),
         ("tasks", .list [
    .dict [("task_id", .str "t1"), ("node", .str "FLIGHT_AGENT"),
           ("inputs", .dict [("city_iata", city_iata), ("start_date", start_date),
                             ("end_date", end_date), ("budget", budget)]),
           ("parallel", .bool false), ("on_success", .str "t2"),
           ("on_failure", .str "BUDGET_REVIEW")],
    .dict [("task_id", .str "t2"), ("node", .str "ACCOMMODATION_AGENT"),
           ("inputs", .dict [("city_iata", city_iata), ("start_date", start_date),
                             ("end_date", end_date), ("duration_days", duration_days),
                             ("budget", budget)]),
           ("parallel", .bool true), ("on_success", .str "t3"),
           ("on_failure", .str "BUDGET_REVIEW")],
    .dict [("task_id", .str "t3"), ("node", .str "FOOD_AGENT"),
           ("inputs", .dict [("city", city), ("duration_days", duration_days),
                             ("budget", budget)]),
           ("parallel", .bool true), ("on_success", .str "t4"),
           ("on_failure", .str "t4")],
    .dict [("task_id", .str "t4"), ("node", .str "ACTIVITIES_AGENT"),
           ("inputs", .dict [("city", city), ("duration_days", duration_days),
                             ("remaining_budget", budget)]),
           ("parallel", .bool true), ("on_success", .str "t5"),
           ("on_failure", .str "BUDGET_REVIEW")],
    .dict [("task_id", .str "t5"), ("node", .str "TOTAL_COST_CHECK"),
           ("inputs", .dict []), ("parallel", .bool false),
           ("on_success", .str "ITINERARY_PLANNER"),
           ("on_failure", .str "BUDGET_REVIEW")]])]

/-! ## Synchronous failure heuristic (main.py lines 297-307) -/

/-- One clause of the heuristic: `float(state.get(k, 0.0)) <= 0`, where a
conversion failure raises and the surrounding `try/except` then sets
`is_failure = True`. -/
def moneyLeZero (st : PyDict) (k : String) : Bool :=
  match getMoney st k with
  | some q => decide (q ≤ 0)
  | Option.none => true

/-- The orchestrator's failure heuristic for a synchronously executed task
(main.py lines 297-307): only the flight, accommodation and food nodes are
checked, each against its own headline cost in the post-merge state; every
other node (including ACTIVITIES_AGENT) is never considered failed here. -/
def sync_is_failure (node : String) (st : PyDict) : Bool :=
  if node = "FLIGHT_AGENT" then moneyLeZero st "flight_cost"
  else if node = "ACCOMMODATION_AGENT" then moneyLeZero st "accommodation_cost"
  else if node = "FOOD_AGENT" then moneyLeZero st "food_cost"
  else false

/-- Modelled from the spec: the spec's failure signal for synchronously
executed tasks (spec section 4.2, "Failure signal"): a task is failed iff the
capability reported an explicit error, or — for the four cost-estimation
nodes — its headline cost output is ≤ 0 after execution.  This definition
follows the spec's words and is compared against the source-derived
`sync_is_failure`. -/
def spec_sync_failure (explicitError : Bool) (node : String) (st : PyDict) : Bool :=
  explicitError
  || (node = "FLIGHT_AGENT" && moneyLeZero st "flight_cost")
  || (node = "ACCOMMODATION_AGENT" && moneyLeZero st "accommodation_cost")
  || (node = "FOOD_AGENT" && moneyLeZero st "food_cost")
  || (node = "ACTIVITIES_AGENT" && moneyLeZero st "activities_cost")

/-- Whether the task-id strings extracted from a task list contain a
duplicate (helper for the spec-modelled validator). -/
def hasDupStrings : List String → Bool
  | [] => false
  | x :: xs => xs.contains x || hasDupStrings xs

/-- The task-id strings of a task list, with a duplicate check (helper for
the spec-modelled validator; a missing or non-string id reads as ""). -/
def hasDupIds (ts : List PyVal) : Bool :=
  hasDupStrings (ts.map (fun t =>
    match t with
    | .dict td =>
      match dget td "task_id" with
      | some (.str s) => s
      | _ => ""
    | _ => ""))

/-- Modelled from the spec: `validate(plan) -> bool` (spec section 4.1): a
plan is valid iff its task list is non-empty, has at most 8 tasks, every task
has non-empty `task_id` and `node`, and task ids are unique.  The source has
no such function; this definition follows the spec's words and is compared
with the planner's structural checks. -/
def spec_validate (p : PyVal) : Bool :=
  match p with
  | .dict d =>
    match dget d "tasks" with
    | some (.list ts) =>
      ¬ ts.isEmpty && decide (ts.length ≤ 8)
      && ts.all (fun t =>
           match t with
           | .dict td =>
             (match dget td "task_id" with
              | some (.str s) => ¬ s.isEmpty
              | _ => false)
             && (match dget td "node" with
                 | some (.str s) => ¬ s.isEmpty
                 | _ => false)
           | _ => false)
      && ¬ hasDupIds ts
    | _ => false
  | _ => false

/-! ## Orchestrator loop (main.py, create_and_run_planner, lines 51-341) -/

/-- The node names registered in NODE_TO_FUNC (main.py lines 112-120); a task
whose node is not among them is skipped with a warning (line 269-272). -/
def knownNode (n : String) : Bool :=
  n = "FLIGHT_AGENT" || n = "ACCOMMODATION_AGENT" || n = "FOOD_AGENT"
  || n = "ACTIVITIES_AGENT" || n = "TOTAL_COST_CHECK" || n = "BUDGET_REVIEW"
  || n = "ITINERARY_PLANNER"

/-- MAX_REPLANS (utils/helpers.py line 23). -/
def MAX_REPLANS : ℕ := 3

/-- The outcome of one agent invocation: a returned value, or a raised
exception with its message and formatted traceback. -/
inductive AgentOutcome where
  | ok (out : PyVal)
  | exn (msg : String) (tb : String)

/-- The failure context handed to the replanner (main.py lines 241-245 and
310): primary failing task id, the full failed set (parallel path; the sync
path carries the single id), and a snapshot of the run state. -/
structure FailureContext where
  failing_task_id : String
  failed_tasks : List String
  state_snapshot : PyDict

/-- The environment of external collaborators a run interacts with: per
invocation index and state snapshot, the agent's outcome; the order in which
a parallel batch's results are collected (`as_completed` order — an arbitrary
reordering); the plan produced by `replanner_agent` on each failure (the
deterministic rules or the LLM path — arbitrary, since the theorems hold for
every returned plan); the budget-review suggestion text; and the itinerary
draft text.  Universal quantification over `AgentEnv` covers the concrete
agents' behaviours. -/
structure AgentEnv where
  outcome : ℕ → PyDict → AgentOutcome
  collect : ℕ → List (String × Bool × PyVal) → List (String × Bool × PyVal)
  replanFn : ℕ → FailureContext → Plan → Plan
  sugg : String
  draft : String

/-- run_agent_worker (main.py lines 123-145): an ok non-dict output is
replaced by a messages-only dict (line 135-136, still a success); an
exception becomes a failure partial carrying a message and a trace record
(lines 138-145). -/
def workerOut (node : String) (o : AgentOutcome) : Bool × PyVal :=
  match o with
  | .ok p =>
    (true, if isDict p then p
           else .dict [("messages", .list [.str ("Agent " ++ node ++ " returned non-dict output")])])
  | .exn m tb =>
    (false, .dict [("messages", .list [.str ("Agent " ++ node ++ " failed on attempt 1: " ++ m)]),
                   ("trace", .list [.dict [("node", .str node), ("error", .str m),
                                           ("traceback", .str tb)]])])

/-- The worker's task id: `inputs.get("task_id") or node` (line 128), where
the orchestrator put `t.get("task_id", node)` into the inputs (lines
203-205); an empty id is falsy and reads as the node name. -/
def workerId (t : PlanTask) : String :=
  if t.task_id = "" then t.node else t.task_id

/-- The submitted batch, in submission order: each task paired with its
worker's success flag and partial output.  All workers receive the same
snapshot of the state at batch start. -/
def batchItems (env : AgentEnv) (snap : PyDict) :
    List PlanTask → ℕ → List (String × Bool × PyVal)
  | [], _ => []
  | t :: ts, ctr =>
    (workerId t, workerOut t.node (env.outcome ctr snap)) :: batchItems env snap ts (ctr + 1)

/-- A synchronous task's partial output (main.py lines 275-282): the agent's
return value as-is, or, on an exception, an error partial with a message and
a trace record. -/
def syncOut (node : String) (o : AgentOutcome) : PyVal :=
  match o with
  | .ok p => p
  | .exn m tb =>
    .dict [("messages", .list [.str ("Agent " ++ node ++ " failed: " ++ m)]),
           ("trace", .list [.dict [("node", .str node), ("error", .str m),
                                   ("traceback", .str tb)]])]

/-- The initial synchronous flight step's partial output (main.py lines
153-159): like the sync case but the error trace record has no traceback
field. -/
def flightOut (o : AgentOutcome) : PyVal :=
  match o with
  | .ok p => p
  | .exn m _ =>
    .dict [("messages", .list [.str ("Flight agent failed: " ++ m)]),
           ("trace", .list [.dict [("node", .str "FLIGHT_AGENT"), ("error", .str m)]])]

/-- Assignment into the `results` mapping keyed by worker task id, with
Python dict semantics (replace first occurrence in place, else append). -/
def rset : List (String × Bool × PyVal) → String → Bool × PyVal → List (String × Bool × PyVal)
  | [], k, v => [(k, v.1, v.2)]
  | (k', v') :: rest, k, v =>
    if k' = k then (k, v.1, v.2) :: rest else (k', v') :: rset rest k v

/-- The `results` dict built while collecting a parallel batch (main.py lines
209-222): keyed by task id, a later completion overwrites an earlier one with
the same id. -/
def collectResults (items : List (String × Bool × PyVal)) : List (String × Bool × PyVal) :=
  items.foldl (fun acc it => rset acc it.1 it.2) []

/-- One parallel batch (main.py lines 191-237): submit every task against a
snapshot of the state, collect results in oracle order, merge all partials in
the main thread, recompute the remaining budget, and report the failing ids
(collection order). -/
def runBatch (env : AgentEnv) (ctr : ℕ) (st : PyDict) (batch : List PlanTask) :
    PyDict × List String :=
  let items := batchItems env st batch ctr
  let collected := env.collect ctr items
  let results := collectResults collected
  let failures := (collected.filter (fun it => !it.2.1)).map (fun it => it.1)
  let merged := results.foldl (fun s it => mergeRun s it.2.2) st
  (recompute merged, failures)

/-- The result of executing the current plan's task list from the current
position: the plan was exhausted, or some batch/sync task failed.  Both carry
the state, the accumulated log of post-merge-point states, and the agent
invocation counter. -/
inductive ExecResult where
  | done (st : PyDict) (log : List PyDict) (ctr : ℕ)
  | failed (st : PyDict) (log : List PyDict) (ctr : ℕ) (fails : List String)

/-- The batch-building and execution loop (main.py lines 178-324, without the
replanning reaction): group a contiguous run of parallel-flagged tasks into a
batch (lines 180-188), run a batch of size > 1 concurrently, otherwise run
the single task synchronously — skipping unknown nodes (lines 269-272) — and
stop at the first failure (heuristic `sync_is_failure` for sync tasks, worker
failure for parallel ones). -/
def execPlan (env : AgentEnv) (ts : List PlanTask) (st : PyDict)
    (log : List PyDict) (ctr : ℕ) : ExecResult :=
  match ts with
  | [] => .done st log ctr
  | t :: rest =>
    let batchTail := if t.parallel then rest.takeWhile (fun x => x.parallel) else []
    let rest1 := if t.parallel then rest.dropWhile (fun x => x.parallel) else rest
    if batchTail.isEmpty then
      if knownNode t.node then
        let out := syncOut t.node (env.outcome ctr st)
        let st2 := recompute (mergeRun st out)
        if sync_is_failure t.node st2 then
          .failed st2 (log ++ [st2]) (ctr + 1) [t.task_id]
        else
          execPlan env rest1 st2 (log ++ [st2]) (ctr + 1)
      else
        execPlan env rest1 st log ctr
    else
      let batch := t :: batchTail
      let st2 := (runBatch env ctr st batch).1
      let fails := (runBatch env ctr st batch).2
      if fails.isEmpty then
        execPlan env rest1 st2 (log ++ [st2]) (ctr + batch.length)
      else
        .failed st2 (log ++ [st2]) (ctr + batch.length) fails
termination_by ts.length
decreasing_by
  all_goals
    simp only [List.length_cons]
    have h1 : (if t.parallel = true then List.dropWhile (fun x => x.parallel) rest
              else rest).length ≤ rest.length := by
      split
      · exact (List.dropWhile_sublist _).length_le
      · exact Nat.le_refl _
    have h2 : (if h : t.parallel = true then List.dropWhile (fun x => x.parallel) rest
              else rest).length ≤ rest.length := by
      split
      · exact (List.dropWhile_sublist _).length_le
      · exact Nat.le_refl _
    omega

/-- itinerary_planner_agent's partial output shape (agents/itinerary_agent.py
lines 20-25, 108-115 and 188-198): every path — cache hit, LLM-disabled
fallback, and day-by-day LLM generation — returns exactly an
`itinerary_draft`, a one-element `messages` list and `next_action = FINISH`;
no trace record and no cost fields.  `draft` abstracts the generated text. -/
def itineraryPartial (draft : String) : PyVal :=
  .dict [("itinerary_draft", .str draft),
         ("messages", .list [.str "Itinerary draft completed."]),
         ("next_action", .str "FINISH")]

/-- The terminal steps at normal plan exhaustion (main.py lines 326-341): if
the remaining budget reads negative, merge the budget-review partial (the
read is inside `try/except`; a failed read skips the step); then always merge
the itinerary partial.  Each merge is a logged merge point. -/
def finalSteps (env : AgentEnv) (st : PyDict) (log : List PyDict) (adopted : ℕ) :
    PyDict × List PyDict × ℕ :=
  let negative : Bool :=
    match toNum ((dget st "remaining_budget").getD (.num 0)) with
    | some r => decide (r < 0)
    | Option.none => false
  let st1 := if negative then mergeRun st (budget_review_agent env.sugg st) else st
  let log1 := if negative then log ++ [st1] else log
  let st2 := mergeRun st1 (itineraryPartial env.draft)
  (st2, log1 ++ [st2], adopted)

/-- The replan-exhaustion hard stop (main.py lines 250-254 and 315-319):
merge the budget-review partial, merge the itinerary partial, and return. -/
def exhaustSteps (env : AgentEnv) (st : PyDict) (log : List PyDict) (adopted : ℕ) :
    PyDict × List PyDict × ℕ :=
  let st1 := mergeRun st (budget_review_agent env.sugg st)
  let st2 := mergeRun st1 (itineraryPartial env.draft)
  (st2, log ++ [st1, st2], adopted)

/-- The replanning loop around `execPlan` (main.py lines 178-324): on plan
exhaustion run the terminal steps; on a failure build the failure context,
invoke the replanner, and either adopt the new plan restarting from its first
task (`i = 0`) or — when the replan budget is spent — run the exhaustion hard
stop.  `replansLeft` counts down from MAX_REPLANS (the source increments
`replan_count` and stops when it exceeds MAX_REPLANS); `adopted` counts the
replans actually adopted for re-execution.  The returned triple is the final
state, the log of post-merge-point states, and `adopted`. -/
def orchestrate (env : AgentEnv) :
    ℕ → List PlanTask → Plan → PyDict → List PyDict → ℕ → ℕ → PyDict × List PyDict × ℕ
  | replansLeft, toRun, plan, st, log, ctr, adopted =>
    match execPlan env toRun st log ctr with
    | .done st1 log1 _ => finalSteps env st1 log1 adopted
    | .failed st1 log1 ctr1 fails =>
      let fc : FailureContext :=
        { failing_task_id := fails.headD "", failed_tasks := fails, state_snapshot := st1 }
      let plan1 := env.replanFn ctr1 fc plan
      match replansLeft with
      | 0 => exhaustSteps env st1 log1 adopted
      | r + 1 => orchestrate env r plan1.tasks plan1 st1 log1 ctr1 (adopted + 1)

/-- State initialization (main.py lines 106-110): default the four cost
fields and the remaining budget to `0.0` and the two logs to `[]` (the
`state.get(k, [])` default of the source's `setdefault` only matters when the
key is absent, in which case it is `[]`). -/
def initState (st0 : PyDict) : PyDict :=
  let s1 := ["flight_cost", "accommodation_cost", "food_cost", "activities_cost",
             "remaining_budget"].foldl (fun s k => dsetdefault s k (.num 0)) st0
  dsetdefault (dsetdefault s1 "messages" (.list [])) "trace" (.list [])

/-- create_and_run_planner (main.py lines 51-341), from the point where the
plan is in hand: initialize the runtime state; if the plan's first task is
the flight node, execute it synchronously first (lines 151-173; its failure
is converted to an error partial, and no failure heuristic is applied to this
initial step), then run the batch loop from the second task; otherwise run
the loop from the first task.  An empty task list delegates to the legacy
LangGraph pipeline (line 100-103) — an external collaborator, modelled as
returning the untouched initial state and excluded by hypothesis in the
theorems below.  Returns (final state, log of post-merge-point states,
adopted replan count). -/
def create_and_run_planner (env : AgentEnv) (plan : Plan) (st0 : PyDict) :
    PyDict × List PyDict × ℕ :=
  match plan.tasks with
  | [] => (st0, [], 0)
  | t :: rest =>
    let st := initState st0
    if t.node = "FLIGHT_AGENT" then
      let out := flightOut (env.outcome 0 st)
      let st2 := recompute (mergeRun st out)
      orchestrate env MAX_REPLANS rest plan st2 [st2] 1 0
    else
      orchestrate env MAX_REPLANS (t :: rest) plan st [] 0 0

/-! ## Statement-level predicates -/

/-- The last binding of a key in a dict-item list (with left-to-right
merging, the last occurrence of a key wins). -/
def lastBind : List (String × PyVal) → String → Option PyVal
  | [], _ => Option.none
  | (k', v) :: rest, k =>
    match lastBind rest k with
    | some w => some w
    | Option.none => if k' = k then some v else Option.none

/-- A value that is an exact multiple of one hundredth — the shape of every
monetary value in the system (every agent returns `round(float(...), 2)`
costs, and the user budget is a two-decimal number input). -/
def centVal (v : PyVal) : Prop := ∃ z : ℤ, v = .num ((z : ℚ) / 100)

/-- The monetary keys of the run state. -/
def moneyKeys : List String :=
  ["budget", "flight_cost", "accommodation_cost", "food_cost",
   "activities_cost", "remaining_budget"]

/-- A partial result whose monetary keys (if it is a dict, and if present)
all carry cent-valued numbers.  Every partial the concrete agents return has
this shape. -/
def partialMoneyWF (p : PyVal) : Prop :=
  ∀ items k v, p = .dict items → (k, v) ∈ items → k ∈ moneyKeys → centVal v

/-- Well-formedness of one agent outcome: a returned value has well-formed
monetary keys (exceptions carry none). -/
def outcomeMoneyWF : AgentOutcome → Prop
  | .ok p => partialMoneyWF p
  | .exn _ _ => True

/-- Environment well-formedness for the budget-invariant theorem: every
agent outcome has cent-valued monetary keys, and the batch-collection order
only reorders (or drops/duplicates) actually submitted results — it cannot
invent results. -/
def envMoneyWF (env : AgentEnv) : Prop :=
  (∀ n st, outcomeMoneyWF (env.outcome n st))
  ∧ (∀ n l x, x ∈ env.collect n l → x ∈ l)

/-- Run-state well-formedness: monetary keys hold cent-valued numbers and
the two logs are lists. -/
def stateWF (st : PyDict) : Prop :=
  (∀ k v, dget st k = some v → k ∈ moneyKeys → centVal v)
  ∧ (∃ l, dget st "messages" = some (.list l))
  ∧ (∃ l, dget st "trace" = some (.list l))

/-- The budget invariant of spec sections 3 and 8: the remaining budget
reads exactly as the budget minus the sum of the four named cost fields. -/
def budgetInvariant (st : PyDict) : Prop :=
  ∃ b f a fo ac,
    getMoney st "budget" = some b
    ∧ getMoney st "flight_cost" = some f
    ∧ getMoney st "accommodation_cost" = some a
    ∧ getMoney st "food_cost" = some fo
    ∧ getMoney st "activities_cost" = some ac
    ∧ getMoney st "remaining_budget" = some (b - (f + a + fo + ac))

/-- The per-state property carried through an `ExecResult`: it holds of the
result state and of every logged merge-point state. -/
def execResultOK (P : PyDict → Prop) : ExecResult → Prop
  | .done st log _ => P st ∧ ∀ s ∈ log, P s
  | .failed st log _ _ => P st ∧ ∀ s ∈ log, P s

/-! ## Dict lemmas -/

theorem dget_dset_self (d : PyDict) (k : String) (v : PyVal) :
    dget (dset d k v) k = some v := by
  induction d with
  | nil => simp [dget, dset]
  | cons e rest ih =>
    obtain ⟨k1, v1⟩ := e
    by_cases h : k1 = k
    · simp [dset, h, dget]
    · simp [dset, h, dget, ih]

theorem dget_dset_ne (d : PyDict) (k k2 : String) (v : PyVal) (h : k ≠ k2) :
    dget (dset d k v) k2 = dget d k2 := by
  induction d with
  | nil => simp [dget, dset, h]
  | cons e rest ih =>
    obtain ⟨k1, v1⟩ := e
    by_cases h1 : k1 = k
    · subst h1
      simp [dset, dget, h]
    · simp [dset, h1, dget, ih]

theorem dget_dsetdefault_ne (d : PyDict) (k k2 : String) (v : PyVal) (h : k ≠ k2) :
    dget (dsetdefault d k v) k2 = dget d k2 := by
  unfold dsetdefault
  match h1 : dget d k with
  | some w => rfl
  | Option.none => exact dget_dset_ne d k k2 v h

theorem dget_dsetdefault_self (d : PyDict) (k : String) (v : PyVal) :
    dget (dsetdefault d k v) k = some ((dget d k).getD v) := by
  unfold dsetdefault
  match h1 : dget d k with
  | some w => simp [h1]
  | Option.none => simp [h1, dget_dset_self]

/-! ## Merge lemmas -/

theorem mergeItem_log (st : PyDict) (k : String) (cur : List PyVal) (v0 : PyVal)
    (hk : k = "messages" ∨ k = "trace") (hm : dget st k = some (.list cur)) :
    ∃ δ, mergeItem st k v0 = some (dset st k (.list (cur ++ δ))) := by
  have hd : dsetdefault st k (.list []) = st := by unfold dsetdefault; rw [hm]
  unfold mergeItem
  rw [if_pos hk]
  simp only [hd, hm]
  cases v0 <;> exact ⟨_, rfl⟩

theorem mergeItem_other (st : PyDict) (k : String) (v : PyVal)
    (h1 : k ≠ "messages") (h2 : k ≠ "trace") :
    mergeItem st k v = some (dset st k v) := by
  unfold mergeItem
  rw [if_neg]
  simp [h1, h2]

/-- The workhorse merge lemma: merging a dict partial into a state whose two
logs are lists succeeds, appends to both logs, and ends with every other key
reading as its last binding in the partial (or its old value when the partial
does not bind it). -/
theorem mergeItems_spec :
    ∀ (items : List (String × PyVal)) (st : PyDict) (ms tr : List PyVal),
    dget st "messages" = some (.list ms) → dget st "trace" = some (.list tr) →
    ∃ st1 dm dt, mergeItems st items = some st1
      ∧ dget st1 "messages" = some (.list (ms ++ dm))
      ∧ dget st1 "trace" = some (.list (tr ++ dt))
      ∧ ∀ k, k ≠ "messages" → k ≠ "trace" →
          dget st1 k = (match lastBind items k with
                        | some v => some v
                        | Option.none => dget st k) := by
  intro items
  induction items with
  | nil =>
    intro st ms tr hm ht
    exact ⟨st, [], [], rfl, by simpa using hm, by simpa using ht,
      fun k _ _ => by simp [lastBind]⟩
  | cons e rest ih =>
    intro st ms tr hm ht
    obtain ⟨k0, v0⟩ := e
    by_cases hk0m : k0 = "messages"
    · subst hk0m
      obtain ⟨δ, hδ⟩ := mergeItem_log st "messages" ms v0 (Or.inl rfl) hm
      have hm1 : dget (dset st "messages" (.list (ms ++ δ))) "messages"
          = some (.list (ms ++ δ)) := dget_dset_self _ _ _
      have ht1 : dget (dset st "messages" (.list (ms ++ δ))) "trace"
          = some (.list tr) := by
        rw [dget_dset_ne _ _ _ _ (by decide)]; exact ht
      obtain ⟨st1, dm, dt, hrun, h1, h2, h3⟩ := ih _ _ _ hm1 ht1
      refine ⟨st1, δ ++ dm, dt, ?_, ?_, h2, ?_⟩
      · simpa [mergeItems, hδ] using hrun
      · simpa [List.append_assoc] using h1
      · intro k hk1 hk2
        have := h3 k hk1 hk2
        rw [this]
        have hne : ¬ ("messages" = k) := fun h => hk1 h.symm
        simp only [lastBind, hne]
        match lastBind rest k with
        | some w => rfl
        | Option.none =>
          simp only [if_neg hne]
          exact dget_dset_ne _ _ _ _ (fun h => hk1 h.symm)
    · by_cases hk0t : k0 = "trace"
      · subst hk0t
        obtain ⟨δ, hδ⟩ := mergeItem_log st "trace" tr v0 (Or.inr rfl) ht
        have ht1 : dget (dset st "trace" (.list (tr ++ δ))) "trace"
            = some (.list (tr ++ δ)) := dget_dset_self _ _ _
        have hm1 : dget (dset st "trace" (.list (tr ++ δ))) "messages"
            = some (.list ms) := by
          rw [dget_dset_ne _ _ _ _ (by decide)]; exact hm
        obtain ⟨st1, dm, dt, hrun, h1, h2, h3⟩ := ih _ _ _ hm1 ht1
        refine ⟨st1, dm, δ ++ dt, ?_, h1, ?_, ?_⟩
        · simpa [mergeItems, hδ] using hrun
        · simpa [List.append_assoc] using h2
        · intro k hk1 hk2
          have := h3 k hk1 hk2
          rw [this]
          have hne : ¬ ("trace" = k) := fun h => hk2 h.symm
          simp only [lastBind, hne]
          match lastBind rest k with
          | some w => rfl
          | Option.none =>
            simp only [if_neg hne]
            exact dget_dset_ne _ _ _ _ (fun h => hk2 h.symm)
      · have hstep : mergeItem st k0 v0 = some (dset st k0 v0) :=
          mergeItem_other st k0 v0 hk0m hk0t
        have hm1 : dget (dset st k0 v0) "messages" = some (.list ms) := by
          rw [dget_dset_ne _ _ _ _ hk0m]; exact hm
        have ht1 : dget (dset st k0 v0) "trace" = some (.list tr) := by
          rw [dget_dset_ne _ _ _ _ hk0t]; exact ht
        obtain ⟨st1, dm, dt, hrun, h1, h2, h3⟩ := ih _ _ _ hm1 ht1
        refine ⟨st1, dm, dt, ?_, h1, h2, ?_⟩
        · simpa [mergeItems, hstep] using hrun
        · intro k hk1 hk2
          have := h3 k hk1 hk2
          rw [this]
          simp only [lastBind]
          match lastBind rest k with
          | some w => rfl
          | Option.none =>
            by_cases hk : k0 = k
            · subst hk
              simp [dget_dset_self]
            · simp only [if_neg hk]
              exact dget_dset_ne _ _ _ _ hk

/-! ## Claim C9: merging a non-dict partial is a no-op -/

/-- C9: for every run state, merging a partial result that is not a dict
(None, a string, a list, a number, a boolean) is a no-op:
`merge_partial_state` returns without adding, removing, or modifying any key
of the state (main.py lines 63-64, `if not isinstance(partial, dict):
return`). -/
theorem merge_partial_state_nondict_noop (st : PyDict) (p : PyVal)
    (h : isDict p = false) : merge_partial_state st p = some st := by
  cases p with
  | dict d => simp [isDict] at h
  | _ => rfl

/-- Witness for C9 at a concrete state and a concrete non-dict partial. -/
theorem merge_partial_state_nondict_noop_witness :
    isDict PyVal.none = false
    ∧ merge_partial_state [("flight_cost", PyVal.num 5)] PyVal.none
      = some [("flight_cost", PyVal.num 5)] :=
  ⟨rfl, merge_partial_state_nondict_noop [("flight_cost", PyVal.num 5)] PyVal.none rfl⟩

/-! ## Claim C4: the merge appends to the logs and overwrites everything else -/

/-- C4: for every run state whose `messages` and `trace` logs are lists and
every dict partial result, the state merge succeeds, appends the partial's
messages and trace entries to the ends of the existing logs (prior entries
unchanged and in order — the post-merge logs are the pre-merge logs plus a
suffix), and every other key present in the partial overwrites the
corresponding state key (the last binding wins), while keys the partial does
not bind are unchanged (main.py lines 61-80). -/
theorem merge_appends_logs_overwrites_rest (st : PyDict)
    (items : List (String × PyVal)) (ms tr : List PyVal)
    (hm : dget st "messages" = some (.list ms))
    (ht : dget st "trace" = some (.list tr)) :
    ∃ st1, merge_partial_state st (.dict items) = some st1
      ∧ (∃ dm, dget st1 "messages" = some (.list (ms ++ dm)))
      ∧ (∃ dt, dget st1 "trace" = some (.list (tr ++ dt)))
      ∧ ∀ k, k ≠ "messages" → k ≠ "trace" →
          (lastBind items k = Option.none → dget st1 k = dget st k)
          ∧ (∀ v, lastBind items k = some v → dget st1 k = some v) := by
  obtain ⟨st1, dm, dt, hrun, h1, h2, h3⟩ := mergeItems_spec items st ms tr hm ht
  refine ⟨st1, hrun, ⟨dm, h1⟩, ⟨dt, h2⟩, ?_⟩
  intro k hk1 hk2
  constructor
  · intro hnone
    have := h3 k hk1 hk2
    rw [hnone] at this
    exact this
  · intro v hv
    have := h3 k hk1 hk2
    rw [hv] at this
    exact this

/-- Witness for C4: a concrete merge appending one message, one trace record,
and overwriting one cost key. -/
theorem merge_appends_logs_overwrites_rest_witness :
    ∃ st1, merge_partial_state
        [("messages", PyVal.list [PyVal.str "m0"]), ("trace", PyVal.list []),
         ("flight_cost", PyVal.num 1)]
        (PyVal.dict [("messages", PyVal.list [PyVal.str "m1"]),
                     ("trace", PyVal.dict [("node", PyVal.str "X")]),
                     ("flight_cost", PyVal.num 7)])
      = some st1
      ∧ (∃ dm, dget st1 "messages" = some (.list ([PyVal.str "m0"] ++ dm)))
      ∧ (∃ dt, dget st1 "trace" = some (.list ([] ++ dt)))
      ∧ ∀ k, k ≠ "messages" → k ≠ "trace" →
          (lastBind [("messages", PyVal.list [PyVal.str "m1"]),
                     ("trace", PyVal.dict [("node", PyVal.str "X")]),
                     ("flight_cost", PyVal.num 7)] k = Option.none →
            dget st1 k = dget [("messages", PyVal.list [PyVal.str "m0"]),
                               ("trace", PyVal.list []),
                               ("flight_cost", PyVal.num 1)] k)
          ∧ (∀ v, lastBind [("messages", PyVal.list [PyVal.str "m1"]),
                            ("trace", PyVal.dict [("node", PyVal.str "X")]),
                            ("flight_cost", PyVal.num 7)] k = some v →
              dget st1 k = some v) :=
  merge_appends_logs_overwrites_rest _ _ [PyVal.str "m0"] [] rfl rfl

/-! ## Claim C10: budget review is a frame no-op when within budget -/

/-- C10: whenever budget_review_agent is invoked on a state whose
remaining budget reads ≥ 0, the partial result it returns is exactly the
skip partial — it contains no cost keys and no remaining_budget key and sets
is_budget_met to True — so merging it leaves every cost field and the
remaining budget of the state unchanged
(agents/budget_review_agent.py lines 14-29). -/
theorem budget_review_skip_frame (sugg : String) (st : PyDict) (r : ℚ)
    (ms tr : List PyVal)
    (hr : dget st "remaining_budget" = some (PyVal.num r)) (h0 : 0 ≤ r)
    (hm : dget st "messages" = some (.list ms))
    (ht : dget st "trace" = some (.list tr)) :
    (∀ k ∈ (["flight_cost", "accommodation_cost", "food_cost",
             "activities_cost", "remaining_budget"] : List String),
        dget (pvEntries (budget_review_agent sugg st)) k = Option.none)
    ∧ dget (pvEntries (budget_review_agent sugg st)) "is_budget_met"
        = some (.bool true)
    ∧ ∃ st1, merge_partial_state st (budget_review_agent sugg st) = some st1
        ∧ ∀ k ∈ (["flight_cost", "accommodation_cost", "food_cost",
                  "activities_cost", "remaining_budget"] : List String),
            dget st1 k = dget st k := by
  have hout : budget_review_agent sugg st
      = .dict [("is_budget_met", .bool true),
               ("messages", .list [.str "Budget review skipped: plan already within budget."]),
               ("next_action", .str "ITINERARY_PLANNER")] := by
    unfold budget_review_agent
    rw [hr]
    simp [toNum, h0]
  refine ⟨?_, ?_, ?_⟩
  · intro k hk
    rw [hout]
    simp only [List.mem_cons, List.mem_singleton] at hk
    rcases hk with rfl | rfl | rfl | rfl | rfl | h
    · rfl
    · rfl
    · rfl
    · rfl
    · rfl
    · cases h
  · rw [hout]; rfl
  · rw [hout]
    obtain ⟨st1, dm, dt, hrun, h1, h2, h3⟩ :=
      mergeItems_spec [("is_budget_met", .bool true),
        ("messages", .list [.str "Budget review skipped: plan already within budget."]),
        ("next_action", .str "ITINERARY_PLANNER")] st ms tr hm ht
    refine ⟨st1, hrun, ?_⟩
    intro k hk
    simp only [List.mem_cons, List.mem_singleton] at hk
    rcases hk with rfl | rfl | rfl | rfl | rfl | h
    · exact (h3 _ (by decide) (by decide)).trans (by rfl)
    · exact (h3 _ (by decide) (by decide)).trans (by rfl)
    · exact (h3 _ (by decide) (by decide)).trans (by rfl)
    · exact (h3 _ (by decide) (by decide)).trans (by rfl)
    · exact (h3 _ (by decide) (by decide)).trans (by rfl)
    · cases h

/-- Witness for C10 at a concrete within-budget state. -/
theorem budget_review_skip_frame_witness :
    (∀ k ∈ (["flight_cost", "accommodation_cost", "food_cost",
             "activities_cost", "remaining_budget"] : List String),
        dget (pvEntries (budget_review_agent "s"
          [("remaining_budget", PyVal.num 5), ("flight_cost", PyVal.num 3),
           ("messages", PyVal.list []), ("trace", PyVal.list [])])) k = Option.none)
    ∧ dget (pvEntries (budget_review_agent "s"
        [("remaining_budget", PyVal.num 5), ("flight_cost", PyVal.num 3),
         ("messages", PyVal.list []), ("trace", PyVal.list [])])) "is_budget_met"
        = some (.bool true)
    ∧ ∃ st1, merge_partial_state
        [("remaining_budget", PyVal.num 5), ("flight_cost", PyVal.num 3),
         ("messages", PyVal.list []), ("trace", PyVal.list [])]
        (budget_review_agent "s"
          [("remaining_budget", PyVal.num 5), ("flight_cost", PyVal.num 3),
           ("messages", PyVal.list []), ("trace", PyVal.list [])]) = some st1
        ∧ ∀ k ∈ (["flight_cost", "accommodation_cost", "food_cost",
                  "activities_cost", "remaining_budget"] : List String),
            dget st1 k = dget
              [("remaining_budget", PyVal.num 5), ("flight_cost", PyVal.num 3),
               ("messages", PyVal.list []), ("trace", PyVal.list [])] k :=
  budget_review_skip_frame "s" _ 5 [] [] rfl (by norm_num) rfl rfl

/-! ## Rounding lemmas -/

theorem pyRoundInt_intCast (z : ℤ) : pyRoundInt (z : ℚ) = z := by
  unfold pyRoundInt
  norm_num

theorem pyRoundInt_nonneg (q : ℚ) (h : 0 ≤ q) : 0 ≤ pyRoundInt q := by
  have hf : 0 ≤ ⌊q⌋ := Int.floor_nonneg.mpr h
  unfold pyRoundInt
  split
  · exact hf
  · split
    · omega
    · split
      · exact hf
      · omega

theorem pyRoundInt_le_half (q : ℚ) : (pyRoundInt q : ℚ) ≤ q + 1 / 2 := by
  have hf : (⌊q⌋ : ℚ) ≤ q := Int.floor_le q
  unfold pyRoundInt
  split
  · linarith
  · rename_i h1
    push_neg at h1
    split
    · push_cast
      linarith
    · rename_i h2
      push_neg at h2
      have : q - (⌊q⌋ : ℚ) = 1 / 2 := le_antisymm h2 h1
      split
      · linarith
      · push_cast
        linarith

theorem pyRound2_cent_id (z : ℤ) : pyRound2 ((z : ℚ) / 100) = (z : ℚ) / 100 := by
  unfold pyRound2
  have harg : ((z : ℚ) / 100) * 100 = (z : ℚ) := by
    field_simp
  rw [harg, pyRoundInt_intCast]

theorem pyRound2_cent_shape (q : ℚ) : ∃ z : ℤ, pyRound2 q = (z : ℚ) / 100 :=
  ⟨pyRoundInt (q * 100), rfl⟩

/-- The 20% cut of a nonnegative whole-cent amount: its exact value in
cents, nonnegativity, and the bound cut ≤ amount. -/
theorem twenty_percent_cut (z : ℤ) (hz : 0 ≤ z) :
    pyRound2 ((z : ℚ) / 100 * (20 / 100))
      = (pyRoundInt ((z : ℚ) / 5) : ℚ) / 100
    ∧ 0 ≤ (pyRoundInt ((z : ℚ) / 5) : ℚ) / 100
    ∧ (pyRoundInt ((z : ℚ) / 5) : ℚ) / 100 ≤ (z : ℚ) / 100 := by
  have harg : ((z : ℚ) / 100 * (20 / 100)) * 100 = (z : ℚ) / 5 := by ring
  have hz5 : (0 : ℚ) ≤ (z : ℚ) / 5 := by positivity
  have hnn : 0 ≤ pyRoundInt ((z : ℚ) / 5) := pyRoundInt_nonneg _ hz5
  refine ⟨by unfold pyRound2; rw [harg], by positivity, ?_⟩
  have hle : pyRoundInt ((z : ℚ) / 5) ≤ z := by
    rcases eq_or_lt_of_le hz with h0 | h1
    · have : ((z : ℚ) / 5) = ((0 : ℤ) : ℚ) := by rw [← h0]; norm_num
      rw [this, pyRoundInt_intCast]
      omega
    · have h1q : (1 : ℚ) ≤ (z : ℚ) := by exact_mod_cast h1
      have := pyRoundInt_le_half ((z : ℚ) / 5)
      have hq : (pyRoundInt ((z : ℚ) / 5) : ℚ) ≤ (z : ℚ) := by linarith
      exact_mod_cast hq
  have : (pyRoundInt ((z : ℚ) / 5) : ℚ) ≤ (z : ℚ) := by exact_mod_cast hle
  linarith

/-! ## Claim C7: the over-budget review reduces the largest tracked cost -/

/-- C7 counterexample: the claim says the budget-review step reduces the
single largest cost category among flight, accommodation, food and
activities; at this over-budget state food (90000) is strictly the largest
of the four, yet the returned partial does not touch `food_cost` — it
reduces `flight_cost` (the largest of the three candidates the source
considers) by 20% instead (agents/budget_review_agent.py lines 86-101 build
the candidate dict without `food_cost`). -/
theorem budget_review_largest_excludes_food_counterexample :
    moneyOr0 [("budget", PyVal.num 100000), ("remaining_budget", PyVal.num (-7000)),
              ("flight_cost", PyVal.num 10000), ("accommodation_cost", PyVal.num 5000),
              ("activities_cost", PyVal.num 2000), ("food_cost", PyVal.num 90000)]
        "food_cost" = 90000
    ∧ ((90000 : ℚ) > 10000 ∧ (90000 : ℚ) > 5000 ∧ (90000 : ℚ) > 2000)
    ∧ dget (pvEntries (budget_review_agent "s"
        [("budget", PyVal.num 100000), ("remaining_budget", PyVal.num (-7000)),
         ("flight_cost", PyVal.num 10000), ("accommodation_cost", PyVal.num 5000),
         ("activities_cost", PyVal.num 2000), ("food_cost", PyVal.num 90000)]))
        "food_cost" = Option.none
    ∧ dget (pvEntries (budget_review_agent "s"
        [("budget", PyVal.num 100000), ("remaining_budget", PyVal.num (-7000)),
         ("flight_cost", PyVal.num 10000), ("accommodation_cost", PyVal.num 5000),
         ("activities_cost", PyVal.num 2000), ("food_cost", PyVal.num 90000)]))
        "flight_cost" = some (PyVal.num 8000) := by
  have hout : budget_review_agent "s"
      [("budget", PyVal.num 100000), ("remaining_budget", PyVal.num (-7000)),
       ("flight_cost", PyVal.num 10000), ("accommodation_cost", PyVal.num 5000),
       ("activities_cost", PyVal.num 2000), ("food_cost", PyVal.num 90000)]
      = .dict [("flight_cost", .num 8000),
               ("suggestion", .str "s"),
               ("action", .str "Reduced largest expense by 20 percent."),
               ("remaining_budget", .num (-5000)),
               ("is_budget_met", .bool false),
               ("messages", .list [.str "Budget review applied.",
                                   .str "Recomputed remaining budget."]),
               ("next_action", .str "BUDGET_REVIEW")] := by
    unfold budget_review_agent
    simp [dget, moneyOr0, pyFalsy, toNum]
    norm_num [pyRound2, pyRoundInt]
    simp
    norm_num [Int.fract]
  refine ⟨?_, ⟨by norm_num, by norm_num, by norm_num⟩, ?_, ?_⟩
  · simp [dget, moneyOr0, pyFalsy, toNum]
  · rw [hout]; simp [pvEntries, dget]
  · rw [hout]; simp [pvEntries, dget]

/-- Reading a numeric key through the `or 0.0` guard gives its value (a zero
value is falsy and reads as 0.0, which is the same number). -/
theorem moneyOr0_num (st : PyDict) (k : String) (q : ℚ)
    (h : dget st k = some (PyVal.num q)) : moneyOr0 st k = q := by
  unfold moneyOr0
  rw [h]
  by_cases hq : q = 0
  · simp [pyFalsy, hq]
  · simp [pyFalsy, hq, toNum]

/-- C7 amended: whenever the budget-review step runs with a negative
remaining budget (equal, as at every orchestrator merge point, to budget
minus the four whole-cent, nonnegative costs), it reduces the single largest
cost category AMONG FLIGHT, ACCOMMODATION AND ACTIVITIES — food_cost is not a
candidate (see the counterexample) — by 20% (rounded to two decimals), and
the recomputed remaining budget it reports is ≥ the pre-review remaining
budget. -/
theorem budget_review_overbudget_reduces_largest_tracked
    (sugg : String) (st : PyDict) (zb zf za zfo zact : ℤ)
    (hb : dget st "budget" = some (.num ((zb : ℚ) / 100)))
    (hf : dget st "flight_cost" = some (.num ((zf : ℚ) / 100)))
    (ha : dget st "accommodation_cost" = some (.num ((za : ℚ) / 100)))
    (hfo : dget st "food_cost" = some (.num ((zfo : ℚ) / 100)))
    (hact : dget st "activities_cost" = some (.num ((zact : ℚ) / 100)))
    (hr : dget st "remaining_budget"
        = some (.num (((zb - (zf + za + zfo + zact) : ℤ) : ℚ) / 100)))
    (hneg : ((zb - (zf + za + zfo + zact) : ℤ) : ℚ) / 100 < 0)
    (hzf : 0 ≤ zf) (hza : 0 ≤ za) (hzact : 0 ≤ zact) :
    ∃ k zc r1,
      k ∈ (["flight_cost", "accommodation_cost", "activities_cost"] : List String)
      ∧ zc = max zf (max za zact)
      ∧ moneyOr0 st k = (zc : ℚ) / 100
      ∧ dget (pvEntries (budget_review_agent sugg st)) k
          = some (.num ((zc : ℚ) / 100 - pyRound2 ((zc : ℚ) / 100 * (20 / 100))))
      ∧ dget (pvEntries (budget_review_agent sugg st)) "remaining_budget"
          = some (.num r1)
      ∧ ((zb - (zf + za + zfo + zact) : ℤ) : ℚ) / 100 ≤ r1 := by
  have hmf := moneyOr0_num st "flight_cost" _ hf
  have hma := moneyOr0_num st "accommodation_cost" _ ha
  have hmact := moneyOr0_num st "activities_cost" _ hact
  have hmfo := moneyOr0_num st "food_cost" _ hfo
  have hmb := moneyOr0_num st "budget" _ hb
  have hrw : (((zb - (zf + za + zfo + zact) : ℤ) : ℚ) / 100 ≥ 0) = False := by
    simp only [ge_iff_le, eq_iff_iff, iff_false, not_le]
    exact hneg
  by_cases h1 : ((za : ℚ) / 100 ≤ (zf : ℚ) / 100 ∧ (zact : ℚ) / 100 ≤ (zf : ℚ) / 100)
  · obtain ⟨hcut1, hcut2, hcut3⟩ := twenty_percent_cut zf hzf
    have hmax : max zf (max za zact) = zf := by
      have h1a : za ≤ zf := by
        have h := h1.1
        rw [div_le_div_right (by norm_num : (0:ℚ) < 100)] at h
        exact_mod_cast h
      have h1b : zact ≤ zf := by
        have h := h1.2
        rw [div_le_div_right (by norm_num : (0:ℚ) < 100)] at h
        exact_mod_cast h
      omega
    have harg : (zb : ℚ) / 100 -
        (((zf : ℚ) / 100 - (pyRoundInt ((zf : ℚ) / 5) : ℚ) / 100)
          + (za : ℚ) / 100 + (zact : ℚ) / 100 + (zfo : ℚ) / 100)
        = ((zb - (zf + za + zfo + zact) + pyRoundInt ((zf : ℚ) / 5) : ℤ) : ℚ) / 100 := by
      push_cast
      ring
    have hout : budget_review_agent sugg st
        = .dict [("flight_cost", .num ((zf : ℚ) / 100 - pyRound2 ((zf : ℚ) / 100 * (20 / 100)))),
                 ("suggestion", .str sugg),
                 ("action", .str "Reduced largest expense by 20 percent."),
                 ("remaining_budget", .num (((zb - (zf + za + zfo + zact)
                    + pyRoundInt ((zf : ℚ) / 5) : ℤ) : ℚ) / 100)),
                 ("is_budget_met", .bool (decide (((zb - (zf + za + zfo + zact)
                    + pyRoundInt ((zf : ℚ) / 5) : ℤ) : ℚ) / 100 ≥ 0))),
                 ("messages", .list [.str "Budget review applied.",
                                     .str "Recomputed remaining budget."]),
                 ("next_action", .str (if (((zb - (zf + za + zfo + zact)
                    + pyRoundInt ((zf : ℚ) / 5) : ℤ) : ℚ) / 100 ≥ 0)
                    then "ITINERARY_PLANNER" else "BUDGET_REVIEW"))] := by
      unfold budget_review_agent
      rw [hr]
      simp only [toNum, Option.getD_some, hrw, if_false]
      rw [hmf, hma, hmact, hmfo, hmb]
      have hc : ((zf : ℚ) / 100 ≥ (za : ℚ) / 100 ∧ (zf : ℚ) / 100 ≥ (zact : ℚ) / 100) := h1
      simp only [ge_iff_le, h1, and_self, if_true, if_pos hc]
      have hnewCost : max 0 ((zf : ℚ) / 100 - pyRound2 ((zf : ℚ) / 100 * (20 / 100)))
          = (zf : ℚ) / 100 - pyRound2 ((zf : ℚ) / 100 * (20 / 100)) := by
        rw [hcut1]
        exact max_eq_right (by linarith)
      simp only [hnewCost]
      simp only [String.reduceEq, if_false, if_true, reduceIte]
      rw [hcut1, harg, pyRound2_cent_id]
      simp only [decide_eq_true_eq]
    refine ⟨"flight_cost", zf,
      ((zb - (zf + za + zfo + zact) + pyRoundInt ((zf : ℚ) / 5) : ℤ) : ℚ) / 100,
      by simp, hmax.symm, hmf, ?_, ?_, ?_⟩
    · rw [hout]; simp [pvEntries, dget]
    · rw [hout]; simp [pvEntries, dget]
    · have hcz : (0 : ℚ) ≤ (pyRoundInt ((zf : ℚ) / 5) : ℚ) / 100 := hcut2
      push_cast
      push_cast at hcz
      linarith
  · have hint1 : ¬(za ≤ zf ∧ zact ≤ zf) := by
      intro hand
      apply h1
      constructor
      · rw [div_le_div_right (by norm_num : (0:ℚ) < 100)]
        exact_mod_cast hand.1
      · rw [div_le_div_right (by norm_num : (0:ℚ) < 100)]
        exact_mod_cast hand.2
    by_cases h2 : ((zact : ℚ) / 100 ≤ (za : ℚ) / 100)
    · obtain ⟨hcut1, hcut2, hcut3⟩ := twenty_percent_cut za hza
      have h2z : zact ≤ za := by
        have h := h2
        rw [div_le_div_right (by norm_num : (0:ℚ) < 100)] at h
        exact_mod_cast h
      have hmax : max zf (max za zact) = za := by omega
      have harg : (zb : ℚ) / 100 -
          ((zf : ℚ) / 100 + ((za : ℚ) / 100 - (pyRoundInt ((za : ℚ) / 5) : ℚ) / 100)
            + (zact : ℚ) / 100 + (zfo : ℚ) / 100)
          = ((zb - (zf + za + zfo + zact) + pyRoundInt ((za : ℚ) / 5) : ℤ) : ℚ) / 100 := by
        push_cast
        ring
      have hout : budget_review_agent sugg st
          = .dict [("accommodation_cost", .num ((za : ℚ) / 100 - pyRound2 ((za : ℚ) / 100 * (20 / 100)))),
                   ("suggestion", .str sugg),
                   ("action", .str "Reduced largest expense by 20 percent."),
                   ("remaining_budget", .num (((zb - (zf + za + zfo + zact)
                      + pyRoundInt ((za : ℚ) / 5) : ℤ) : ℚ) / 100)),
                   ("is_budget_met", .bool (decide (((zb - (zf + za + zfo + zact)
                      + pyRoundInt ((za : ℚ) / 5) : ℤ) : ℚ) / 100 ≥ 0))),
                   ("messages", .list [.str "Budget review applied.",
                                       .str "Recomputed remaining budget."]),
                   ("next_action", .str (if (((zb - (zf + za + zfo + zact)
                      + pyRoundInt ((za : ℚ) / 5) : ℤ) : ℚ) / 100 ≥ 0)
                      then "ITINERARY_PLANNER" else "BUDGET_REVIEW"))] := by
        unfold budget_review_agent
        rw [hr]
        simp only [toNum, Option.getD_some, hrw, if_false]
        rw [hmf, hma, hmact, hmfo, hmb]
        simp only [ge_iff_le, if_neg h1, if_pos h2]
        have hnewCost : max 0 ((za : ℚ) / 100 - pyRound2 ((za : ℚ) / 100 * (20 / 100)))
            = (za : ℚ) / 100 - pyRound2 ((za : ℚ) / 100 * (20 / 100)) := by
          rw [hcut1]
          exact max_eq_right (by linarith)
        simp only [hnewCost]
        simp only [String.reduceEq, if_false, if_true, reduceIte]
        rw [hcut1, harg, pyRound2_cent_id]
        simp only [decide_eq_true_eq]
      refine ⟨"accommodation_cost", za,
        ((zb - (zf + za + zfo + zact) + pyRoundInt ((za : ℚ) / 5) : ℤ) : ℚ) / 100,
        by simp, hmax.symm, hma, ?_, ?_, ?_⟩
      · rw [hout]; simp [pvEntries, dget]
      · rw [hout]; simp [pvEntries, dget]
      · have hcz : (0 : ℚ) ≤ (pyRoundInt ((za : ℚ) / 5) : ℚ) / 100 := hcut2
        push_cast
        push_cast at hcz
        linarith
    · obtain ⟨hcut1, hcut2, hcut3⟩ := twenty_percent_cut zact hzact
      have h2z : za < zact := by
        have h := lt_of_not_le h2
        rw [div_lt_div_iff_of_pos_right (by norm_num : (0:ℚ) < 100)] at h
        exact_mod_cast h
      have hmax : max zf (max za zact) = zact := by omega
      have harg : (zb : ℚ) / 100 -
          ((zf : ℚ) / 100 + (za : ℚ) / 100
            + ((zact : ℚ) / 100 - (pyRoundInt ((zact : ℚ) / 5) : ℚ) / 100)
            + (zfo : ℚ) / 100)
          = ((zb - (zf + za + zfo + zact) + pyRoundInt ((zact : ℚ) / 5) : ℤ) : ℚ) / 100 := by
        push_cast
        ring
      have hout : budget_review_agent sugg st
          = .dict [("activities_cost", .num ((zact : ℚ) / 100 - pyRound2 ((zact : ℚ) / 100 * (20 / 100)))),
                   ("suggestion", .str sugg),
                   ("action", .str "Reduced largest expense by 20 percent."),
                   ("remaining_budget", .num (((zb - (zf + za + zfo + zact)
                      + pyRoundInt ((zact : ℚ) / 5) : ℤ) : ℚ) / 100)),
                   ("is_budget_met", .bool (decide (((zb - (zf + za + zfo + zact)
                      + pyRoundInt ((zact : ℚ) / 5) : ℤ) : ℚ) / 100 ≥ 0))),
                   ("messages", .list [.str "Budget review applied.",
                                       .str "Recomputed remaining budget."]),
                   ("next_action", .str (if (((zb - (zf + za + zfo + zact)
                      + pyRoundInt ((zact : ℚ) / 5) : ℤ) : ℚ) / 100 ≥ 0)
                      then "ITINERARY_PLANNER" else "BUDGET_REVIEW"))] := by
        unfold budget_review_agent
        rw [hr]
        simp only [toNum, Option.getD_some, hrw, if_false]
        rw [hmf, hma, hmact, hmfo, hmb]
        simp only [ge_iff_le, if_neg h1, if_neg h2]
        have hnewCost : max 0 ((zact : ℚ) / 100 - pyRound2 ((zact : ℚ) / 100 * (20 / 100)))
            = (zact : ℚ) / 100 - pyRound2 ((zact : ℚ) / 100 * (20 / 100)) := by
          rw [hcut1]
          exact max_eq_right (by linarith)
        simp only [hnewCost]
        simp only [String.reduceEq, if_false, if_true, reduceIte]
        rw [hcut1, harg, pyRound2_cent_id]
        simp only [decide_eq_true_eq]
      refine ⟨"activities_cost", zact,
        ((zb - (zf + za + zfo + zact) + pyRoundInt ((zact : ℚ) / 5) : ℤ) : ℚ) / 100,
        by simp, hmax.symm, hmact, ?_, ?_, ?_⟩
      · rw [hout]; simp [pvEntries, dget]
      · rw [hout]; simp [pvEntries, dget]
      · have hcz : (0 : ℚ) ≤ (pyRoundInt ((zact : ℚ) / 5) : ℚ) / 100 := hcut2
        push_cast
        push_cast at hcz
        linarith

/-- Witness for the amended C7 at a concrete over-budget state (flight is the
largest tracked cost; the report gains the 20% cut back). -/
theorem budget_review_overbudget_reduces_largest_tracked_witness :
    ∃ (k : String) (zc : ℤ) (r1 : ℚ),
      k ∈ (["flight_cost", "accommodation_cost", "activities_cost"] : List String)
      ∧ zc = max 100000 (max 50000 20000)
      ∧ moneyOr0
          [("budget", PyVal.num 1000), ("flight_cost", PyVal.num 1000),
           ("accommodation_cost", PyVal.num 500), ("activities_cost", PyVal.num 200),
           ("food_cost", PyVal.num 100), ("remaining_budget", PyVal.num (-800))] k
          = (zc : ℚ) / 100
      ∧ dget (pvEntries (budget_review_agent "s"
          [("budget", PyVal.num 1000), ("flight_cost", PyVal.num 1000),
           ("accommodation_cost", PyVal.num 500), ("activities_cost", PyVal.num 200),
           ("food_cost", PyVal.num 100), ("remaining_budget", PyVal.num (-800))])) k
          = some (.num ((zc : ℚ) / 100 - pyRound2 ((zc : ℚ) / 100 * (20 / 100))))
      ∧ dget (pvEntries (budget_review_agent "s"
          [("budget", PyVal.num 1000), ("flight_cost", PyVal.num 1000),
           ("accommodation_cost", PyVal.num 500), ("activities_cost", PyVal.num 200),
           ("food_cost", PyVal.num 100), ("remaining_budget", PyVal.num (-800))]))
          "remaining_budget" = some (.num r1)
      ∧ ((100000 - (100000 + 50000 + 10000 + 20000) : ℤ) : ℚ) / 100 ≤ r1 :=
  budget_review_overbudget_reduces_largest_tracked "s"
    [("budget", PyVal.num 1000), ("flight_cost", PyVal.num 1000),
     ("accommodation_cost", PyVal.num 500), ("activities_cost", PyVal.num 200),
     ("food_cost", PyVal.num 100), ("remaining_budget", PyVal.num (-800))]
    100000 100000 50000 10000 20000
    (by simp [dget] <;> norm_num) (by simp [dget] <;> norm_num)
    (by simp [dget] <;> norm_num) (by simp [dget] <;> norm_num)
    (by simp [dget] <;> norm_num) (by simp [dget] <;> norm_num)
    (by norm_num) (by norm_num) (by norm_num) (by norm_num)

/-! ## Claim C5: the synchronous failure heuristic -/

/-- C5 counterexample: the claim says a synchronously executed
cost-estimation task (flight, accommodation, food, or activities) is treated
as failed iff the capability reported an explicit error or its headline cost
is ≤ 0; but at a state with `activities_cost = 0` the spec-modelled signal
fires for ACTIVITIES_AGENT (even without an explicit error) while the
orchestrator's heuristic does not — activities is not checked at all
(main.py lines 297-307), so no replanning is triggered. -/
theorem sync_failure_activities_counterexample :
    spec_sync_failure false "ACTIVITIES_AGENT" [("activities_cost", PyVal.num 0)] = true
    ∧ spec_sync_failure true "ACTIVITIES_AGENT" [("activities_cost", PyVal.num 0)] = true
    ∧ sync_is_failure "ACTIVITIES_AGENT" [("activities_cost", PyVal.num 0)] = false := by
  refine ⟨?_, rfl, rfl⟩
  simp [spec_sync_failure, moneyLeZero, getMoney, dget, toNum]

/-- C5 amended: the orchestrator's synchronous failure heuristic fires iff
the node is FLIGHT_AGENT, ACCOMMODATION_AGENT or FOOD_AGENT and that node's
own headline cost in the post-merge state reads ≤ 0 (or fails to convert);
an explicit error contributes only through this cost floor, and
ACTIVITIES_AGENT (like every other node) is never treated as failed in the
synchronous path. -/
theorem sync_is_failure_characterization (node : String) (st : PyDict) :
    sync_is_failure node st = true ↔
      ((node = "FLIGHT_AGENT" ∧ moneyLeZero st "flight_cost" = true)
       ∨ (node = "ACCOMMODATION_AGENT" ∧ moneyLeZero st "accommodation_cost" = true)
       ∨ (node = "FOOD_AGENT" ∧ moneyLeZero st "food_cost" = true)) := by
  unfold sync_is_failure
  by_cases h1 : node = "FLIGHT_AGENT"
  · subst h1
    simp
  · by_cases h2 : node = "ACCOMMODATION_AGENT"
    · subst h2
      simp
    · by_cases h3 : node = "FOOD_AGENT"
      · subst h3
        simp
      · simp [h1, h2, h3]

/-! ## Claim C6: plan validation -/

/-- C6 counterexample: the claim says validation rejects any plan with a
duplicate task_id; but the planner's checks (agents/planner_agent.py lines
47-53) only reject structurally malformed plans and plans with more than 8
tasks, so a two-task plan whose tasks share the id "t1" — rejected by the
spec-modelled `spec_validate` — is accepted and returned for execution
instead of the fallback plan. -/
theorem planner_accepts_duplicate_ids_counterexample :
    spec_validate (.dict [("plan_id", .str "p"),
      ("tasks", .list [.dict [("task_id", .str "t1"), ("node", .str "FLIGHT_AGENT")],
                       .dict [("task_id", .str "t1"), ("node", .str "FOOD_AGENT")]])])
      = false
    ∧ planner_agent_select
        (some (.dict [("plan_id", .str "p"),
          ("tasks", .list [.dict [("task_id", .str "t1"), ("node", .str "FLIGHT_AGENT")],
                           .dict [("task_id", .str "t1"), ("node", .str "FOOD_AGENT")]])]))
        (fallback_plan (.str "c") (.str "ci") (.str "s") (.str "e") (.num 3) (.num 5) "ts")
      = .dict [("plan_id", .str "p"),
          ("tasks", .list [.dict [("task_id", .str "t1"), ("node", .str "FLIGHT_AGENT")],
                           .dict [("task_id", .str "t1"), ("node", .str "FOOD_AGENT")]])] :=
  ⟨rfl, rfl⟩

/-- C6 amended: the structural check run on every planner generation result
accepts any dict plan whose `tasks` list has at most 8 entries (no task-id
uniqueness and no non-emptiness of task fields is checked), rejects plans
with more than 8 tasks or a malformed structure, and a rejected or failed
generation is replaced by the deterministic fallback plan — it is never
returned for execution.  (The replanner validates only the dict-with-tasks
schema on its LLM path and nothing on its deterministic path.) -/
theorem planner_select_characterization (p fb : PyVal) :
    (plannerStructOk p = true → plannerTasksLen p ≤ 8 →
      planner_agent_select (some p) fb = p)
    ∧ (plannerTasksLen p > 8 → planner_agent_select (some p) fb = fb)
    ∧ (plannerStructOk p = false → planner_agent_select (some p) fb = fb)
    ∧ planner_agent_select Option.none fb = fb := by
  refine ⟨?_, ?_, ?_, rfl⟩
  · intro h1 h2
    have h3 : ¬ (plannerTasksLen p > 8) := by omega
    simp [planner_agent_select, h1, h3]
  · intro h
    by_cases hs : plannerStructOk p = true
    · simp [planner_agent_select, hs, h]
    · simp [planner_agent_select, hs]
  · intro h
    simp [planner_agent_select, h]

/-- Witness for the amended C6: a well-formed one-task plan is accepted; a
nine-task plan is replaced by the fallback. -/
theorem planner_select_characterization_witness :
    planner_agent_select
      (some (.dict [("plan_id", .str "p"),
        ("tasks", .list [.dict [("task_id", .str "t1"), ("node", .str "FLIGHT_AGENT")]])]))
      (.str "FB")
      = .dict [("plan_id", .str "p"),
          ("tasks", .list [.dict [("task_id", .str "t1"), ("node", .str "FLIGHT_AGENT")]])]
    ∧ planner_agent_select
        (some (.dict [("tasks", .list [.num 1, .num 2, .num 3, .num 4, .num 5,
                                       .num 6, .num 7, .num 8, .num 9])]))
        (.str "FB")
      = .str "FB" :=
  ⟨(planner_select_characterization _ _).1 rfl (by simp [plannerTasksLen, dget]),
   (planner_select_characterization _ _).2.1 (by simp [plannerTasksLen, dget])⟩

/-! ## Claim C8: freshness of replanner plan ids -/

/-- C8 counterexample: replanner plan ids are derived from the wall clock at
second granularity ("replan_" + timestamp, agents/replanner_agent.py lines
28-32), so two replan invocations within the same second produce the same
plan_id, and when the current plan is itself a replan minted in the same
second the returned plan_id equals the current plan's plan_id. -/
theorem replanner_plan_id_collision_counterexample :
    (wrapPlan "20250101000000" []).plan_id
      = (wrapPlan "20250101000000"
          [⟨"t1", "FLIGHT_AGENT", [], false, "t2", "BUDGET_REVIEW"⟩]).plan_id
    ∧ (replanner_agent (fun _ => ⟨0, []⟩) "x"
        { plan_id := "replan_20250101000000", tasks := [] }
        "20250101000000").plan_id
      = "replan_20250101000000" :=
  ⟨rfl, rfl⟩

/-- C8 amended: every plan the replanner returns carries the id
"replan_" + timestamp; ids from two invocations are distinct whenever their
second-granularity timestamps differ, and the returned id differs from the
current plan's id provided the current id is not itself "replan_" + the same
timestamp. -/
theorem replanner_plan_id_characterization (m : String → NodeSpec)
    (fid : String) (plan : Plan) (now now2 : String) (ts1 ts2 : List PlanTask) :
    (replanner_agent m fid plan now).plan_id = "replan_" ++ now
    ∧ (now ≠ now2 → (wrapPlan now ts1).plan_id ≠ (wrapPlan now2 ts2).plan_id)
    ∧ (plan.plan_id ≠ "replan_" ++ now →
        (replanner_agent m fid plan now).plan_id ≠ plan.plan_id) := by
  have hid : (replanner_agent m fid plan now).plan_id = "replan_" ++ now := by
    unfold replanner_agent
    rcases h : find_task plan.tasks fid with _ | ft
    · simp only [h]
      rfl
    · simp only [h]
      by_cases hr : (m ft.node).max_retries > 0
      · simp only [if_pos hr]
        rfl
      · simp only [if_neg hr]
        rcases hfb : (m ft.node).fallback_providers with _ | ⟨fb, rest⟩
        · simp only [hfb]
          rfl
        · simp only [hfb]
          rfl
  refine ⟨hid, ?_, ?_⟩
  · intro hne heq
    apply hne
    have hd := congrArg String.data heq
    simp only [wrapPlan, String.data_append] at hd
    have := List.append_cancel_left hd
    exact String.ext this
  · intro hne heq
    rw [hid] at heq
    exact hne heq.symm

/-- Witness for the amended C8 at concrete timestamps and plans. -/
theorem replanner_plan_id_characterization_witness :
    (replanner_agent (fun _ => NodeSpec.mk 0 []) "t9" (Plan.mk "orig" []) "B").plan_id
      = "replan_" ++ "B"
    ∧ (wrapPlan "B" []).plan_id ≠ (wrapPlan "A" []).plan_id
    ∧ (replanner_agent (fun _ => NodeSpec.mk 0 []) "t9" (Plan.mk "orig" []) "B").plan_id
      ≠ (Plan.mk "orig" []).plan_id :=
  have h := replanner_plan_id_characterization (fun _ => NodeSpec.mk 0 []) "t9"
    (Plan.mk "orig" []) "B" "A" [] []
  ⟨h.1, h.2.1 (by decide), h.2.2 (by decide)⟩

/-! ## Claim C3: the replanner decision rules -/

theorem map_if_id_of_ne (g : PlanTask → PlanTask) (fid : String) :
    ∀ l : List PlanTask, (∀ t ∈ l, ¬ t.task_id = fid) →
      (l.map fun t => if t.task_id = fid then g t else t) = l := by
  intro l h
  induction l with
  | nil => rfl
  | cons a as ih =>
    simp only [List.map_cons]
    rw [if_neg (h a (by simp)), ih (fun t ht => h t (by simp [ht]))]

theorem filter_eq_nil_of_ne (s : String) :
    ∀ l : List PlanTask, (∀ t ∈ l, ¬ t.task_id = s) →
      (l.filter fun t => t.task_id = s) = [] := by
  intro l h
  induction l with
  | nil => rfl
  | cons a as ih =>
    rw [List.filter_cons]
    rw [if_neg (by simp [h a (by simp)])]
    exact ih (fun t ht => h t (by simp [ht]))

theorem filter_ne_keep (fid : String) :
    ∀ l : List PlanTask, (∀ t ∈ l, ¬ t.task_id = fid) →
      (l.filter fun t => ¬ t.task_id = fid) = l := by
  intro l h
  induction l with
  | nil => rfl
  | cons a as ih =>
    rw [List.filter_cons]
    rw [if_pos (by simp [h a (by simp)])]
    rw [ih (fun t ht => h t (by simp [ht]))]

theorem append_retry_ne (s : String) : ¬ (s ++ "_retry" = s) := by
  intro h
  have hl := congrArg String.length h
  rw [String.length_append] at hl
  have : ("_retry" : String).length = 6 := rfl
  omega

/-- C3 amended: for a failure context whose failing task is present in the
current plan, provided the plan's task ids are unique and no task already
carries the id failing_task_id + "_retry": when the manifest gives the
failing node max_retries > 0 the returned plan replaces the failing task's
slot with its retry variant (same node, on_failure BUDGET_REVIEW, by
definition of make_retry) and contains exactly one task with the id
failing_task_id + "_retry" and none with the failing id; otherwise with a
non-empty fallback_providers list the slot is replaced by the first
provider's task (make_fallback); otherwise the returned plan is the same
task list minus exactly the failing task. -/
theorem replanner_decision_rules (m : String → NodeSpec) (fid now : String)
    (plan : Plan) (ft : PlanTask)
    (hfind : find_task plan.tasks fid = some ft)
    (hnodup : (plan.tasks.map (fun t => t.task_id)).Nodup)
    (hnoretry : (fid ++ "_retry") ∉ plan.tasks.map (fun t => t.task_id)) :
    ((m ft.node).max_retries > 0 →
      ∃ l1 l2, plan.tasks = l1 ++ ft :: l2
        ∧ (replanner_agent m fid plan now).tasks = l1 ++ make_retry ft :: l2
        ∧ ((replanner_agent m fid plan now).tasks.filter
            (fun t => t.task_id = fid ++ "_retry")).length = 1
        ∧ fid ∉ (replanner_agent m fid plan now).tasks.map (fun t => t.task_id))
    ∧ (¬ (m ft.node).max_retries > 0 →
        ∀ fb rest, (m ft.node).fallback_providers = fb :: rest →
        ∃ l1 l2, plan.tasks = l1 ++ ft :: l2
          ∧ (replanner_agent m fid plan now).tasks = l1 ++ make_fallback ft fb :: l2)
    ∧ (¬ (m ft.node).max_retries > 0 → (m ft.node).fallback_providers = [] →
        ∃ l1 l2, plan.tasks = l1 ++ ft :: l2
          ∧ (replanner_agent m fid plan now).tasks = l1 ++ l2) := by
  have hp : ft.task_id = fid := by
    have h := List.find?_some hfind
    simpa using h
  have hmem : ft ∈ plan.tasks := List.mem_of_find?_eq_some hfind
  obtain ⟨l1, l2, hdec⟩ := List.append_of_mem hmem
  have hidsplit : (plan.tasks.map (fun t => t.task_id))
      = (l1.map fun t => t.task_id) ++ fid :: (l2.map fun t => t.task_id) := by
    rw [hdec, List.map_append, List.map_cons, hp]
  rw [hidsplit] at hnodup hnoretry
  have hnd := List.nodup_append.mp hnodup
  have hfid1 : ∀ t ∈ l1, ¬ t.task_id = fid := by
    intro t ht heq
    apply hnd.2.2 (List.mem_map_of_mem (fun x => x.task_id) ht)
    simp [heq]
  have hfid2 : ∀ t ∈ l2, ¬ t.task_id = fid := by
    intro t ht heq
    apply (List.nodup_cons.mp hnd.2.1).1
    rw [← heq]
    exact List.mem_map_of_mem (fun x => x.task_id) ht
  have hretry1 : ∀ t ∈ l1, ¬ t.task_id = fid ++ "_retry" := by
    intro t ht heq
    apply hnoretry
    rw [List.mem_append]
    left
    rw [← heq]
    exact List.mem_map_of_mem (fun x => x.task_id) ht
  have hretry2 : ∀ t ∈ l2, ¬ t.task_id = fid ++ "_retry" := by
    intro t ht heq
    apply hnoretry
    rw [List.mem_append, List.mem_cons]
    right
    right
    rw [← heq]
    exact List.mem_map_of_mem (fun x => x.task_id) ht
  refine ⟨?_, ?_, ?_⟩
  · intro hr
    have hres : (replanner_agent m fid plan now).tasks = l1 ++ make_retry ft :: l2 := by
      unfold replanner_agent
      simp only [hfind, if_pos hr, wrapPlan]
      rw [hdec, List.map_append, List.map_cons, if_pos hp,
        map_if_id_of_ne _ _ l1 hfid1, map_if_id_of_ne _ _ l2 hfid2]
    refine ⟨l1, l2, hdec, hres, ?_, ?_⟩
    · rw [hres, List.filter_append, List.filter_cons]
      rw [if_pos (by simp [make_retry, hp])]
      rw [filter_eq_nil_of_ne _ l1 hretry1, filter_eq_nil_of_ne _ l2 hretry2]
      simp
    · rw [hres]
      intro hmemid
      simp only [List.map_append, List.map_cons, List.mem_append, List.mem_cons] at hmemid
      rcases hmemid with h1 | h2 | h3
      · obtain ⟨t, ht, heq⟩ := List.mem_map.mp h1
        exact hfid1 t ht heq
      · rw [show (make_retry ft).task_id = ft.task_id ++ "_retry" from rfl, hp] at h2
        exact append_retry_ne fid h2.symm
      · obtain ⟨t, ht, heq⟩ := List.mem_map.mp h3
        exact hfid2 t ht heq
  · intro hr fb rest hfb
    refine ⟨l1, l2, hdec, ?_⟩
    unfold replanner_agent
    simp only [hfind, if_neg hr, hfb, wrapPlan]
    rw [hdec, List.map_append, List.map_cons, if_pos hp,
      map_if_id_of_ne _ _ l1 hfid1, map_if_id_of_ne _ _ l2 hfid2]
  · intro hr hfb
    refine ⟨l1, l2, hdec, ?_⟩
    unfold replanner_agent
    simp only [hfind, if_neg hr, hfb, wrapPlan]
    rw [hdec, List.filter_append, List.filter_cons]
    rw [if_neg (by simp [hp])]
    rw [filter_ne_keep _ l1 hfid1, filter_ne_keep _ l2 hfid2]

/-- C3 counterexample: when the current plan already contains a sibling task
whose id is failing_task_id + "_retry", the retry rule produces TWO tasks
with that id, contradicting the claimed "exactly one task with id
failing_task_id + \"_retry\"": the map at agents/replanner_agent.py lines
69-72 replaces the failing task but leaves the preexisting same-id sibling
in place. -/
theorem replanner_retry_duplicate_id_counterexample :
    ((fun n => if n = "NODE_A" then NodeSpec.mk 1 [] else NodeSpec.mk 0 [])
        "NODE_A").max_retries > 0
    ∧ find_task [⟨"t1", "NODE_A", [], false, "t2", "REPLAN"⟩,
                 ⟨"t1_retry", "NODE_B", [], false, "t3", "REPLAN"⟩] "t1"
        = some ⟨"t1", "NODE_A", [], false, "t2", "REPLAN"⟩
    ∧ ((replanner_agent
          (fun n => if n = "NODE_A" then NodeSpec.mk 1 [] else NodeSpec.mk 0 [])
          "t1"
          (Plan.mk "p" [⟨"t1", "NODE_A", [], false, "t2", "REPLAN"⟩,
                        ⟨"t1_retry", "NODE_B", [], false, "t3", "REPLAN"⟩])
          "TS").tasks.filter (fun t => t.task_id = "t1" ++ "_retry")).length = 2 :=
  ⟨by norm_num, rfl, rfl⟩

/-- Witness for the amended C3: the retry rule applied to a singleton plan. -/
theorem replanner_decision_rules_witness :
    ∃ l1 l2,
      ([⟨"t1", "N", [], false, "t2", "R"⟩] : List PlanTask)
        = l1 ++ ⟨"t1", "N", [], false, "t2", "R"⟩ :: l2
      ∧ (replanner_agent (fun _ => NodeSpec.mk 1 []) "t1"
          (Plan.mk "p" [⟨"t1", "N", [], false, "t2", "R"⟩]) "TS").tasks
          = l1 ++ make_retry ⟨"t1", "N", [], false, "t2", "R"⟩ :: l2
      ∧ ((replanner_agent (fun _ => NodeSpec.mk 1 []) "t1"
          (Plan.mk "p" [⟨"t1", "N", [], false, "t2", "R"⟩]) "TS").tasks.filter
            (fun t => t.task_id = "t1" ++ "_retry")).length = 1
      ∧ "t1" ∉ (replanner_agent (fun _ => NodeSpec.mk 1 []) "t1"
          (Plan.mk "p" [⟨"t1", "N", [], false, "t2", "R"⟩]) "TS").tasks.map
            (fun t => t.task_id) :=
  (replanner_decision_rules (fun _ => NodeSpec.mk 1 []) "t1" "TS"
    (Plan.mk "p" [⟨"t1", "N", [], false, "t2", "R"⟩])
    ⟨"t1", "N", [], false, "t2", "R"⟩ rfl (by simp) (by decide)).1 (by norm_num)

/-! ## Trace-growth lemmas -/

theorem mergeItem_trace (st st1 : PyDict) (k : String) (v : PyVal) (L : List PyVal)
    (ht : dget st "trace" = some (.list L)) (h : mergeItem st k v = some st1) :
    ∃ δ, dget st1 "trace" = some (.list (L ++ δ)) := by
  by_cases hkt : k = "trace"
  · subst hkt
    obtain ⟨δ, hδ⟩ := mergeItem_log st "trace" L v (Or.inr rfl) ht
    rw [hδ] at h
    cases h
    exact ⟨δ, dget_dset_self _ _ _⟩
  · by_cases hkm : k = "messages"
    · subst hkm
      unfold mergeItem at h
      rw [if_pos (Or.inl rfl)] at h
      dsimp only at h
      have hd : dget (dsetdefault st "messages" (.list [])) "trace"
          = some (.list L) := by
        rw [dget_dsetdefault_ne _ _ _ _ (by decide)]
        exact ht
      rcases hm : dget (dsetdefault st "messages" (.list [])) "messages" with _ | w
      · rw [hm] at h
        cases h
      · rw [hm] at h
        cases w with
        | list cur =>
          refine ⟨[], ?_⟩
          rw [List.append_nil]
          cases v with
          | list l =>
            simp only at h
            cases h
            rw [dget_dset_ne _ _ _ _ (by decide)]
            exact hd
          | _ =>
            simp only at h
            cases h
            rw [dget_dset_ne _ _ _ _ (by decide)]
            exact hd
        | _ => simp at h
    · rw [mergeItem_other st k v hkm hkt] at h
      cases h
      refine ⟨[], ?_⟩
      rw [List.append_nil, dget_dset_ne _ _ _ _ hkt]
      exact ht

theorem mergeItems_trace (items : List (String × PyVal)) :
    ∀ (st st1 : PyDict) (L : List PyVal),
    dget st "trace" = some (.list L) → mergeItems st items = some st1 →
    ∃ δ, dget st1 "trace" = some (.list (L ++ δ)) := by
  induction items with
  | nil =>
    intro st st1 L ht h
    cases h
    exact ⟨[], by rw [List.append_nil]; exact ht⟩
  | cons e rest ih =>
    intro st st1 L ht h
    obtain ⟨k, v⟩ := e
    unfold mergeItems at h
    rcases h1 : mergeItem st k v with _ | st2
    · rw [h1] at h
      cases h
    · rw [h1] at h
      obtain ⟨δ1, hδ1⟩ := mergeItem_trace st st2 k v L ht h1
      obtain ⟨δ2, hδ2⟩ := ih st2 st1 (L ++ δ1) hδ1 h
      exact ⟨δ1 ++ δ2, by rw [← List.append_assoc]; exact hδ2⟩

/-- Any single merge grows the trace log by a (possibly empty) suffix. -/
theorem mergeRun_trace (st : PyDict) (p : PyVal) (L : List PyVal)
    (ht : dget st "trace" = some (.list L)) :
    ∃ δ, dget (mergeRun st p) "trace" = some (.list (L ++ δ)) := by
  unfold mergeRun merge_partial_state
  cases p with
  | dict items =>
    rcases h : mergeItems st items with _ | st1
    · exact ⟨[], by simp [h, List.append_nil, ht]⟩
    · simpa [h] using mergeItems_trace items st st1 L ht h
  | _ => exact ⟨[], by simp [List.append_nil, ht]⟩

theorem recompute_trace (st : PyDict) :
    dget (recompute st) "trace" = dget st "trace" := by
  unfold recompute
  split
  · exact dget_dset_ne _ _ _ _ (by decide)
  · rfl

/-! ## Generic run preservation -/

theorem execPlan_preserves (P : PyDict → Prop) (env : AgentEnv)
    (hsync : ∀ n st node, P st → P (recompute (mergeRun st (syncOut node (env.outcome n st)))))
    (hbatch : ∀ n st batch, P st → P (runBatch env n st batch).1) :
    ∀ (n : ℕ) (ts : List PlanTask), ts.length ≤ n →
    ∀ (st : PyDict) (log : List PyDict) (ctr : ℕ),
      P st → (∀ s ∈ log, P s) → execResultOK P (execPlan env ts st log ctr) := by
  intro n
  induction n with
  | zero =>
    intro ts hlen st log ctr hP hlog
    have hts : ts = [] := List.eq_nil_of_length_eq_zero (Nat.le_zero.mp hlen)
    subst hts
    rw [execPlan]
    exact ⟨hP, hlog⟩
  | succ n ih =>
    intro ts hlen st log ctr hP hlog
    match ts with
    | [] =>
      rw [execPlan]
      exact ⟨hP, hlog⟩
    | t :: rest =>
      rw [execPlan]
      dsimp only
      have hrest : rest.length ≤ n := by
        simp only [List.length_cons] at hlen
        omega
      have hrest1 : (if t.parallel then rest.dropWhile (fun x => x.parallel) else rest).length ≤ n := by
        split
        · exact le_trans (List.dropWhile_sublist _).length_le hrest
        · exact hrest
      by_cases hbt : (if t.parallel then rest.takeWhile (fun x => x.parallel) else []).isEmpty
      · rw [if_pos hbt]
        by_cases hkn : knownNode t.node
        · rw [if_pos hkn]
          by_cases hsf : sync_is_failure t.node
              (recompute (mergeRun st (syncOut t.node (env.outcome ctr st))))
          · rw [if_pos hsf]
            refine ⟨hsync ctr st t.node hP, ?_⟩
            intro s hs
            rcases List.mem_append.mp hs with h1 | h2
            · exact hlog s h1
            · rw [List.mem_singleton.mp h2]
              exact hsync ctr st t.node hP
          · rw [if_neg hsf]
            apply ih _ hrest1
            · exact hsync ctr st t.node hP
            · intro s hs
              rcases List.mem_append.mp hs with h1 | h2
              · exact hlog s h1
              · rw [List.mem_singleton.mp h2]
                exact hsync ctr st t.node hP
        · rw [if_neg hkn]
          exact ih _ hrest1 st log ctr hP hlog
      · rw [if_neg hbt]
        by_cases hfe : ((runBatch env ctr st
            (t :: (if t.parallel then rest.takeWhile (fun x => x.parallel) else []))).2).isEmpty
        · rw [if_pos hfe]
          apply ih _ hrest1
          · exact hbatch ctr st _ hP
          · intro s hs
            rcases List.mem_append.mp hs with h1 | h2
            · exact hlog s h1
            · rw [List.mem_singleton.mp h2]
              exact hbatch ctr st _ hP
        · rw [if_neg hfe]
          refine ⟨hbatch ctr st _ hP, ?_⟩
          intro s hs
          rcases List.mem_append.mp hs with h1 | h2
          · exact hlog s h1
          · rw [List.mem_singleton.mp h2]
            exact hbatch ctr st _ hP

theorem finalSteps_preserves (P : PyDict → Prop) (env : AgentEnv)
    (hbr : ∀ st, P st → P (mergeRun st (budget_review_agent env.sugg st)))
    (hitin : ∀ st, P st → P (mergeRun st (itineraryPartial env.draft)))
    (st : PyDict) (log : List PyDict) (a : ℕ)
    (hP : P st) (hlog : ∀ s ∈ log, P s) :
    P (finalSteps env st log a).1
    ∧ (∀ s ∈ (finalSteps env st log a).2.1, P s)
    ∧ (finalSteps env st log a).2.2 = a := by
  unfold finalSteps
  dsimp only
  set negative : Bool :=
    (match toNum ((dget st "remaining_budget").getD (.num 0)) with
     | some r => decide (r < 0)
     | Option.none => false) with hnegdef
  by_cases hneg : negative = true
  · rw [if_pos hneg, if_pos hneg]
    have h1 : P (mergeRun st (budget_review_agent env.sugg st)) := hbr st hP
    have h2 : P (mergeRun (mergeRun st (budget_review_agent env.sugg st))
        (itineraryPartial env.draft)) := hitin _ h1
    refine ⟨h2, ?_, rfl⟩
    intro s hs
    rcases List.mem_append.mp hs with hs1 | hs2
    · rcases List.mem_append.mp hs1 with hs3 | hs4
      · exact hlog s hs3
      · rw [List.mem_singleton.mp hs4]
        exact h1
    · rw [List.mem_singleton.mp hs2]
      exact h2
  · rw [if_neg hneg, if_neg hneg]
    have h2 : P (mergeRun st (itineraryPartial env.draft)) := hitin _ hP
    refine ⟨h2, ?_, rfl⟩
    intro s hs
    rcases List.mem_append.mp hs with hs1 | hs2
    · exact hlog s hs1
    · rw [List.mem_singleton.mp hs2]
      exact h2

theorem exhaustSteps_preserves (P : PyDict → Prop) (env : AgentEnv)
    (hbr : ∀ st, P st → P (mergeRun st (budget_review_agent env.sugg st)))
    (hitin : ∀ st, P st → P (mergeRun st (itineraryPartial env.draft)))
    (st : PyDict) (log : List PyDict) (a : ℕ)
    (hP : P st) (hlog : ∀ s ∈ log, P s) :
    P (exhaustSteps env st log a).1
    ∧ (∀ s ∈ (exhaustSteps env st log a).2.1, P s)
    ∧ (exhaustSteps env st log a).2.2 = a := by
  unfold exhaustSteps
  dsimp only
  have h1 : P (mergeRun st (budget_review_agent env.sugg st)) := hbr st hP
  have h2 : P (mergeRun (mergeRun st (budget_review_agent env.sugg st))
      (itineraryPartial env.draft)) := hitin _ h1
  refine ⟨h2, ?_, rfl⟩
  intro s hs
  rcases List.mem_append.mp hs with hs1 | hs2
  · exact hlog s hs1
  · rcases List.mem_cons.mp hs2 with hs3 | hs4
    · rw [hs3]
      exact h1
    · rw [List.mem_singleton.mp hs4]
      exact h2

theorem orchestrate_preserves (P : PyDict → Prop) (env : AgentEnv)
    (hsync : ∀ n st node, P st → P (recompute (mergeRun st (syncOut node (env.outcome n st)))))
    (hbatch : ∀ n st batch, P st → P (runBatch env n st batch).1)
    (hbr : ∀ st, P st → P (mergeRun st (budget_review_agent env.sugg st)))
    (hitin : ∀ st, P st → P (mergeRun st (itineraryPartial env.draft))) :
    ∀ (r : ℕ) (toRun : List PlanTask) (plan : Plan) (st : PyDict)
      (log : List PyDict) (ctr a : ℕ),
      P st → (∀ s ∈ log, P s) →
      P (orchestrate env r toRun plan st log ctr a).1
      ∧ (∀ s ∈ (orchestrate env r toRun plan st log ctr a).2.1, P s)
      ∧ (orchestrate env r toRun plan st log ctr a).2.2 ≤ a + r := by
  intro r
  induction r with
  | zero =>
    intro toRun plan st log ctr a hP hlog
    rw [orchestrate]
    have he := execPlan_preserves P env hsync hbatch toRun.length toRun
      (Nat.le_refl _) st log ctr hP hlog
    rcases h : execPlan env toRun st log ctr with ⟨st1, log1, ctr1⟩ | ⟨st1, log1, ctr1, fails⟩
    · rw [h] at he
      obtain ⟨h1, h2⟩ := he
      dsimp only
      have := finalSteps_preserves P env hbr hitin st1 log1 a h1 h2
      exact ⟨this.1, this.2.1, by omega⟩
    · rw [h] at he
      obtain ⟨h1, h2⟩ := he
      dsimp only
      have := exhaustSteps_preserves P env hbr hitin st1 log1 a h1 h2
      exact ⟨this.1, this.2.1, by omega⟩
  | succ r ih =>
    intro toRun plan st log ctr a hP hlog
    rw [orchestrate]
    have he := execPlan_preserves P env hsync hbatch toRun.length toRun
      (Nat.le_refl _) st log ctr hP hlog
    rcases h : execPlan env toRun st log ctr with ⟨st1, log1, ctr1⟩ | ⟨st1, log1, ctr1, fails⟩
    · rw [h] at he
      obtain ⟨h1, h2⟩ := he
      dsimp only
      have := finalSteps_preserves P env hbr hitin st1 log1 a h1 h2
      exact ⟨this.1, this.2.1, by omega⟩
    · rw [h] at he
      obtain ⟨h1, h2⟩ := he
      dsimp only
      have := ih (env.replanFn ctr1
          { failing_task_id := fails.headD "", failed_tasks := fails,
            state_snapshot := st1 } plan).tasks
        (env.replanFn ctr1
          { failing_task_id := fails.headD "", failed_tasks := fails,
            state_snapshot := st1 } plan)
        st1 log1 ctr1 (a + 1) h1 h2
      exact ⟨this.1, this.2.1, by omega⟩

/-! ## Claim C1: termination bound and trace growth -/

theorem step_trace_prefix (tr0 : List PyVal) (st : PyDict) (p : PyVal)
    (h : ∃ d, dget st "trace" = some (.list (tr0 ++ d))) :
    ∃ d, dget (recompute (mergeRun st p)) "trace" = some (.list (tr0 ++ d)) := by
  obtain ⟨d, hd⟩ := h
  obtain ⟨δ, hδ⟩ := mergeRun_trace st p (tr0 ++ d) hd
  rw [recompute_trace, hδ, List.append_assoc]
  exact ⟨d ++ δ, rfl⟩

theorem mergeRun_trace_prefix (tr0 : List PyVal) (st : PyDict) (p : PyVal)
    (h : ∃ d, dget st "trace" = some (.list (tr0 ++ d))) :
    ∃ d, dget (mergeRun st p) "trace" = some (.list (tr0 ++ d)) := by
  obtain ⟨d, hd⟩ := h
  obtain ⟨δ, hδ⟩ := mergeRun_trace st p (tr0 ++ d) hd
  rw [hδ, List.append_assoc]
  exact ⟨d ++ δ, rfl⟩

theorem fold_merge_trace_prefix (tr0 : List PyVal) :
    ∀ (l : List (String × Bool × PyVal)) (st : PyDict),
    (∃ d, dget st "trace" = some (.list (tr0 ++ d))) →
    ∃ d, dget (l.foldl (fun s it => mergeRun s it.2.2) st) "trace"
      = some (.list (tr0 ++ d)) := by
  intro l
  induction l with
  | nil => intro st h; exact h
  | cons x xs ih =>
    intro st h
    exact ih _ ( mergeRun_trace_prefix tr0 st x.2.2 h)

theorem runBatch_trace_prefix (tr0 : List PyVal) (env : AgentEnv) (n : ℕ)
    (st : PyDict) (batch : List PlanTask)
    (h : ∃ d, dget st "trace" = some (.list (tr0 ++ d))) :
    ∃ d, dget (runBatch env n st batch).1 "trace" = some (.list (tr0 ++ d)) := by
  unfold runBatch
  dsimp only
  obtain ⟨d, hd⟩ := fold_merge_trace_prefix tr0 _ st h
  rw [recompute_trace, hd]
  exact ⟨d, rfl⟩

/-- C1 amended: for every initial plan with a non-empty task list and every
environment of task outcomes (successes, failures, agent exceptions,
arbitrary batch collection orders and arbitrary replanner results), the
orchestrator terminates — `create_and_run_planner` is a total function, the
adopted replans are bounded by MAX_REPLANS = 3 (so at most MAX_REPLANS + 1
plans are ever executed), and the returned run state's trace log extends the
initial state's trace log by a suffix.  (The original claim's "trace is
always non-empty" fails — see the counterexample — since only the four
cost-estimation agents and worker-exception partials append trace records.) -/
theorem orchestrator_bounded_replans_and_trace (env : AgentEnv) (plan : Plan)
    (st0 : PyDict) (tr0 : List PyVal)
    (hne : plan.tasks ≠ [])
    (htr : dget (initState st0) "trace" = some (.list tr0)) :
    (create_and_run_planner env plan st0).2.2 ≤ MAX_REPLANS
    ∧ 1 + (create_and_run_planner env plan st0).2.2 ≤ MAX_REPLANS + 1
    ∧ ∃ dt, dget (create_and_run_planner env plan st0).1 "trace"
        = some (.list (tr0 ++ dt)) := by
  have hP0 : ∃ d, dget (initState st0) "trace" = some (.list (tr0 ++ d)) :=
    ⟨[], by rw [List.append_nil]; exact htr⟩
  have horch := orchestrate_preserves
    (fun st => ∃ d, dget st "trace" = some (.list (tr0 ++ d))) env
    (fun n st node hP => step_trace_prefix tr0 st _ hP)
    (fun n st batch hP => runBatch_trace_prefix tr0 env n st batch hP)
    (fun st hP => mergeRun_trace_prefix tr0 st _ hP)
    (fun st hP => mergeRun_trace_prefix tr0 st _ hP)
  unfold create_and_run_planner
  rcases htasks : plan.tasks with _ | ⟨t, rest⟩
  · exact (hne htasks).elim
  · dsimp only
    by_cases hfl : t.node = "FLIGHT_AGENT"
    · rw [if_pos hfl]
      have hP2 : ∃ d, dget (recompute (mergeRun (initState st0)
          (flightOut (env.outcome 0 (initState st0))))) "trace"
          = some (.list (tr0 ++ d)) := step_trace_prefix tr0 _ _ hP0
      have h := horch MAX_REPLANS rest plan
        (recompute (mergeRun (initState st0) (flightOut (env.outcome 0 (initState st0)))))
        [recompute (mergeRun (initState st0) (flightOut (env.outcome 0 (initState st0))))]
        1 0 hP2 (by intro s hs; rw [List.mem_singleton.mp hs]; exact hP2)
      exact ⟨by omega, by omega, h.1⟩
    · rw [if_neg hfl]
      have h := horch MAX_REPLANS (t :: rest) plan (initState st0) [] 0 0 hP0
        (by intro s hs; cases hs)
      exact ⟨by omega, by omega, h.1⟩

/-- C1 counterexample: the claim also asserts the returned RunState's trace
log is always non-empty; but a plan consisting of a single
TOTAL_COST_CHECK task, with the agent returning its within-budget output
(a messages list and a next_action, no trace record — exactly
agents/total_cost_agent.py lines 10-14), runs to completion from an
empty-trace initial state and returns a RunState whose trace log is empty:
neither the final itinerary partial nor total-cost-check ever appends a
trace record. -/
theorem orchestrator_empty_trace_counterexample :
    dget (create_and_run_planner
      { outcome := fun _ _ => .ok (.dict
          [("messages", .list [.str "Total cost within budget."]),
           ("next_action", .str "ITINERARY_PLANNER")])
        collect := fun _ l => l
        replanFn := fun _ _ p => p
        sugg := "s"
        draft := "d" }
      { plan_id := "p", tasks := [⟨"t1", "TOTAL_COST_CHECK", [], false, "x", "y"⟩] }
      [("budget", .num 1000), ("remaining_budget", .num 1000),
       ("messages", .list []), ("trace", .list [])]).1 "trace"
      = some (.list []) := by
  simp [create_and_run_planner, initState, orchestrate, execPlan,
    finalSteps, exhaustSteps, runBatch, mergeRun, merge_partial_state, mergeItems,
    mergeItem, dget, dset, dsetdefault, recompute, toNum, getMoney, syncOut,
    sync_is_failure, moneyLeZero, knownNode, itineraryPartial, MAX_REPLANS]

/-- Witness for the amended C1 at a concrete plan, environment and state. -/
theorem orchestrator_bounded_replans_and_trace_witness :
    (create_and_run_planner
      { outcome := fun _ _ => .ok (.dict
          [("messages", .list [.str "m"]), ("next_action", .str "ITINERARY_PLANNER")])
        collect := fun _ l => l
        replanFn := fun _ _ p => p
        sugg := "s"
        draft := "d" }
      { plan_id := "p", tasks := [⟨"t1", "TOTAL_COST_CHECK", [], false, "x", "y"⟩] }
      [("budget", .num 1000), ("remaining_budget", .num 1000)]).2.2 ≤ MAX_REPLANS
    ∧ 1 + (create_and_run_planner
      { outcome := fun _ _ => .ok (.dict
          [("messages", .list [.str "m"]), ("next_action", .str "ITINERARY_PLANNER")])
        collect := fun _ l => l
        replanFn := fun _ _ p => p
        sugg := "s"
        draft := "d" }
      { plan_id := "p", tasks := [⟨"t1", "TOTAL_COST_CHECK", [], false, "x", "y"⟩] }
      [("budget", .num 1000), ("remaining_budget", .num 1000)]).2.2 ≤ MAX_REPLANS + 1
    ∧ ∃ dt, dget (create_and_run_planner
      { outcome := fun _ _ => .ok (.dict
          [("messages", .list [.str "m"]), ("next_action", .str "ITINERARY_PLANNER")])
        collect := fun _ l => l
        replanFn := fun _ _ p => p
        sugg := "s"
        draft := "d" }
      { plan_id := "p", tasks := [⟨"t1", "TOTAL_COST_CHECK", [], false, "x", "y"⟩] }
      [("budget", .num 1000), ("remaining_budget", .num 1000)]).1 "trace"
        = some (.list ([] ++ dt)) :=
  orchestrator_bounded_replans_and_trace _ _ _ []
    (List.cons_ne_nil _ _) rfl

/-! ## Money well-formedness lemmas -/

theorem lastBind_mem (k : String) (v : PyVal) :
    ∀ (items : List (String × PyVal)), lastBind items k = some v → (k, v) ∈ items := by
  intro items
  induction items with
  | nil => intro h; cases h
  | cons e rest ih =>
    intro h
    obtain ⟨k1, v1⟩ := e
    unfold lastBind at h
    rcases h1 : lastBind rest k with _ | w
    · rw [h1] at h
      dsimp only at h
      split at h
      · rename_i hk
        cases h
        subst hk
        exact List.mem_cons_self _ _
      · cases h
    · rw [h1] at h
      dsimp only at h
      cases h
      exact List.mem_cons_of_mem _ (ih h1)

theorem getMoney_eq_toNum_getD (st : PyDict) (k : String) :
    toNum ((dget st k).getD (.num 0)) = getMoney st k := by
  unfold getMoney
  rcases dget st k with _ | v
  · rfl
  · rfl

theorem moneyReads (st : PyDict) (hwf : stateWF st) (k : String)
    (hk : k ∈ moneyKeys) :
    ∃ z : ℤ, getMoney st k = some ((z : ℚ) / 100)
      ∧ moneyOr0 st k = (z : ℚ) / 100
      ∧ (dget st k = Option.none ∧ (z : ℚ) / 100 = 0
         ∨ dget st k = some (.num ((z : ℚ) / 100))) := by
  rcases hd : dget st k with _ | v
  · exact ⟨0, by simp [getMoney, hd], by simp [moneyOr0, hd], Or.inl ⟨rfl, by norm_num⟩⟩
  · obtain ⟨z, hz⟩ := hwf.1 k v hd hk
    subst hz
    refine ⟨z, by simp [getMoney, hd, toNum], ?_, Or.inr rfl⟩
    exact moneyOr0_num st k _ hd

theorem cent_num_val (z : ℤ) : centVal (.num ((z : ℚ) / 100)) := ⟨z, rfl⟩

/-- Merging a money-well-formed partial preserves state well-formedness, and
keys the partial does not bind keep their values. -/
theorem mergeRun_stateWF (st : PyDict) (p : PyVal)
    (hwf : stateWF st) (hp : partialMoneyWF p) :
    stateWF (mergeRun st p) := by
  obtain ⟨hmoney, ⟨ms, hms⟩, ⟨tr, htr⟩⟩ := hwf
  cases p with
  | dict items =>
    obtain ⟨st1, dm, dt, hrun, h1, h2, h3⟩ := mergeItems_spec items st ms tr hms htr
    have hm1 : mergeRun st (.dict items) = st1 := by
      simp [mergeRun, merge_partial_state, hrun]
    rw [hm1]
    refine ⟨?_, ⟨_, h1⟩, ⟨_, h2⟩⟩
    intro k v hget hk
    have hkm : k ≠ "messages" := by
      intro hkeq
      subst hkeq
      simp [moneyKeys] at hk
    have hkt : k ≠ "trace" := by
      intro hkeq
      subst hkeq
      simp [moneyKeys] at hk
    have h4 := h3 k hkm hkt
    cases hl : lastBind items k with
    | none =>
      rw [hl] at h4
      dsimp only at h4
      rw [h4] at hget
      exact hmoney k v hget hk
    | some w =>
      rw [hl] at h4
      dsimp only at h4
      rw [h4] at hget
      cases hget
      exact hp items k v rfl (lastBind_mem k v items hl) hk
  | num q => exact ⟨hmoney, ⟨ms, hms⟩, ⟨tr, htr⟩⟩
  | str s => exact ⟨hmoney, ⟨ms, hms⟩, ⟨tr, htr⟩⟩
  | bool b => exact ⟨hmoney, ⟨ms, hms⟩, ⟨tr, htr⟩⟩
  | list l => exact ⟨hmoney, ⟨ms, hms⟩, ⟨tr, htr⟩⟩
  | none => exact ⟨hmoney, ⟨ms, hms⟩, ⟨tr, htr⟩⟩

/-- Recomputation on a well-formed state always succeeds and establishes the
budget invariant. -/
theorem recompute_establishes (st : PyDict) (hwf : stateWF st) :
    stateWF (recompute st) ∧ budgetInvariant (recompute st) := by
  obtain ⟨zb, hgb, _, _⟩ := moneyReads st hwf "budget" (by simp [moneyKeys])
  obtain ⟨zf, hgf, _, _⟩ := moneyReads st hwf "flight_cost" (by simp [moneyKeys])
  obtain ⟨za, hga, _, _⟩ := moneyReads st hwf "accommodation_cost" (by simp [moneyKeys])
  obtain ⟨zfo, hgfo, _, _⟩ := moneyReads st hwf "food_cost" (by simp [moneyKeys])
  obtain ⟨zact, hgact, _, _⟩ := moneyReads st hwf "activities_cost" (by simp [moneyKeys])
  have hrec : recompute st = dset st "remaining_budget"
      (.num ((zb : ℚ) / 100 - ((zf : ℚ) / 100 + (za : ℚ) / 100 + (zfo : ℚ) / 100
        + (zact : ℚ) / 100))) := by
    unfold recompute
    rw [getMoney_eq_toNum_getD, hgb, hgf, hga, hgfo, hgact]
  obtain ⟨hmoney, ⟨ms, hms⟩, ⟨tr, htr⟩⟩ := hwf
  have hcent : (zb : ℚ) / 100 - ((zf : ℚ) / 100 + (za : ℚ) / 100 + (zfo : ℚ) / 100
      + (zact : ℚ) / 100) = ((zb - (zf + za + zfo + zact) : ℤ) : ℚ) / 100 := by
    push_cast
    ring
  constructor
  · rw [hrec]
    refine ⟨?_, ⟨ms, ?_⟩, ⟨tr, ?_⟩⟩
    · intro k v hget hk
      by_cases hkr : k = "remaining_budget"
      · subst hkr
        rw [dget_dset_self] at hget
        cases hget
        rw [hcent]
        exact cent_num_val _
      · rw [dget_dset_ne _ _ _ _ (fun h => hkr h.symm)] at hget
        exact hmoney k v hget hk
    · rw [dget_dset_ne _ _ _ _ (by decide)]
      exact hms
    · rw [dget_dset_ne _ _ _ _ (by decide)]
      exact htr
  · have hne : ∀ k2, "remaining_budget" ≠ k2 →
        getMoney (dset st "remaining_budget"
          (.num ((zb : ℚ) / 100 - ((zf : ℚ) / 100 + (za : ℚ) / 100 + (zfo : ℚ) / 100
            + (zact : ℚ) / 100)))) k2 = getMoney st k2 := by
      intro k2 hk2
      unfold getMoney
      rw [dget_dset_ne _ _ _ _ hk2]
    refine ⟨(zb : ℚ) / 100, (zf : ℚ) / 100, (za : ℚ) / 100, (zfo : ℚ) / 100,
      (zact : ℚ) / 100, ?_, ?_, ?_, ?_, ?_, ?_⟩
    all_goals rw [hrec]
    · rw [hne _ (by decide)]
      exact hgb
    · rw [hne _ (by decide)]
      exact hgf
    · rw [hne _ (by decide)]
      exact hga
    · rw [hne _ (by decide)]
      exact hgfo
    · rw [hne _ (by decide)]
      exact hgact
    · unfold getMoney
      rw [dget_dset_self]
      rfl

theorem partialMoneyWF_no_money (items : List (String × PyVal))
    (h : ∀ kv ∈ items, kv.1 ∉ moneyKeys) : partialMoneyWF (.dict items) := by
  intro its k v heq hmem hk
  cases heq
  exact absurd hk (h (k, v) hmem)

theorem workerOut_wf (node : String) (o : AgentOutcome) (ho : outcomeMoneyWF o) :
    partialMoneyWF (workerOut node o).2 := by
  cases o with
  | ok p =>
    unfold workerOut
    dsimp only
    by_cases hd : isDict p
    · rw [if_pos hd]
      exact ho
    · rw [if_neg hd]
      apply partialMoneyWF_no_money
      intro kv hkv
      rw [List.mem_singleton.mp hkv]
      simp [moneyKeys]
  | exn m tb =>
    apply partialMoneyWF_no_money
    intro kv hkv
    rcases List.mem_cons.mp hkv with h1 | h2
    · rw [h1]
      simp [moneyKeys]
    · rw [List.mem_singleton.mp h2]
      simp [moneyKeys]

theorem syncOut_wf (node : String) (o : AgentOutcome) (ho : outcomeMoneyWF o) :
    partialMoneyWF (syncOut node o) := by
  cases o with
  | ok p => exact ho
  | exn m tb =>
    apply partialMoneyWF_no_money
    intro kv hkv
    rcases List.mem_cons.mp hkv with h1 | h2
    · rw [h1]
      simp [moneyKeys]
    · rw [List.mem_singleton.mp h2]
      simp [moneyKeys]

theorem flightOut_wf (o : AgentOutcome) (ho : outcomeMoneyWF o) :
    partialMoneyWF (flightOut o) := by
  cases o with
  | ok p => exact ho
  | exn m tb =>
    apply partialMoneyWF_no_money
    intro kv hkv
    rcases List.mem_cons.mp hkv with h1 | h2
    · rw [h1]
      simp [moneyKeys]
    · rw [List.mem_singleton.mp h2]
      simp [moneyKeys]

theorem itineraryPartial_wf (draftS : String) :
    partialMoneyWF (itineraryPartial draftS) := by
  apply partialMoneyWF_no_money
  intro kv hkv
  rcases List.mem_cons.mp hkv with h1 | h2
  · rw [h1]
    simp [moneyKeys]
  · rcases List.mem_cons.mp h2 with h3 | h4
    · rw [h3]
      simp [moneyKeys]
    · rw [List.mem_singleton.mp h4]
      simp [moneyKeys]

theorem fold_merge_stateWF :
    ∀ (l : List (String × Bool × PyVal)) (st : PyDict), stateWF st →
    (∀ it ∈ l, partialMoneyWF it.2.2) →
    stateWF (l.foldl (fun s it => mergeRun s it.2.2) st) := by
  intro l
  induction l with
  | nil => intro st h _; exact h
  | cons x xs ih =>
    intro st h hwfs
    exact ih _ (mergeRun_stateWF st x.2.2 h (hwfs x (by simp)))
      (fun it hit => hwfs it (by simp [hit]))

theorem mem_rset :
    ∀ (l : List (String × Bool × PyVal)) (k : String) (v : Bool × PyVal)
      (x : String × Bool × PyVal),
    x ∈ rset l k v → x ∈ l ∨ x = (k, v.1, v.2) := by
  intro l
  induction l with
  | nil =>
    intro k v x hx
    unfold rset at hx
    right
    exact List.mem_singleton.mp hx
  | cons e rest ih =>
    intro k v x hx
    obtain ⟨k1, v1⟩ := e
    unfold rset at hx
    split at hx
    · rcases List.mem_cons.mp hx with h1 | h2
      · right; exact h1
      · left; exact List.mem_cons_of_mem _ h2
    · rcases List.mem_cons.mp hx with h1 | h2
      · left; rw [h1]; exact List.mem_cons_self _ _
      · rcases ih k v x h2 with h3 | h4
        · left; exact List.mem_cons_of_mem _ h3
        · right; exact h4

theorem fold_rset_wf :
    ∀ (items acc : List (String × Bool × PyVal)),
    (∀ y ∈ acc, partialMoneyWF y.2.2) → (∀ y ∈ items, partialMoneyWF y.2.2) →
    ∀ x ∈ items.foldl (fun acc2 it => rset acc2 it.1 it.2) acc, partialMoneyWF x.2.2 := by
  intro items
  induction items with
  | nil => intro acc hacc _ x hx; exact hacc x hx
  | cons it rest ih =>
    intro acc hacc hitems x hx
    refine ih _ ?_ (fun y hy => hitems y (by simp [hy])) x hx
    intro y hy
    rcases mem_rset acc it.1 it.2 y hy with h1 | h2
    · exact hacc y h1
    · rw [h2]
      exact hitems it (by simp)

theorem batchItems_wf (env : AgentEnv) (snap : PyDict)
    (ho : ∀ n st, outcomeMoneyWF (env.outcome n st)) :
    ∀ (ts : List PlanTask) (c : ℕ),
    ∀ x ∈ batchItems env snap ts c, partialMoneyWF x.2.2 := by
  intro ts
  induction ts with
  | nil => intro c x hx; cases hx
  | cons t rest ih =>
    intro c x hx
    unfold batchItems at hx
    rcases List.mem_cons.mp hx with h1 | h2
    · rw [h1]
      exact workerOut_wf t.node _ (ho c snap)
    · exact ih (c + 1) x h2

theorem runBatch_wf_inv (env : AgentEnv) (hwfe : envMoneyWF env) (n : ℕ)
    (st : PyDict) (batch : List PlanTask)
    (h : stateWF st ∧ budgetInvariant st) :
    stateWF (runBatch env n st batch).1 ∧ budgetInvariant (runBatch env n st batch).1 := by
  unfold runBatch
  dsimp only
  apply recompute_establishes
  apply fold_merge_stateWF _ _ h.1
  intro it hit
  apply fold_rset_wf _ [] (by intro y hy; cases hy) _ it hit
  intro y hy
  exact batchItems_wf env st hwfe.1 batch n y (hwfe.2 n _ y hy)

theorem merge_no_money_preserves_inv (st : PyDict)
    (items : List (String × PyVal))
    (hwf : stateWF st) (hinv : budgetInvariant st)
    (hnb : ∀ k ∈ moneyKeys, lastBind items k = Option.none) :
    budgetInvariant (mergeRun st (.dict items)) := by
  obtain ⟨hmoney, ⟨ms, hms⟩, ⟨tr, htr⟩⟩ := hwf
  obtain ⟨st1, dm, dt, hrun, h1, h2, h3⟩ := mergeItems_spec items st ms tr hms htr
  have hm1 : mergeRun st (.dict items) = st1 := by
    simp [mergeRun, merge_partial_state, hrun]
  rw [hm1]
  have hpres : ∀ k, k ∈ moneyKeys → getMoney st1 k = getMoney st k := by
    intro k hk
    have hkm : k ≠ "messages" := by
      intro hkeq; subst hkeq; simp [moneyKeys] at hk
    have hkt : k ≠ "trace" := by
      intro hkeq; subst hkeq; simp [moneyKeys] at hk
    have h4 := h3 k hkm hkt
    rw [hnb k hk] at h4
    dsimp only at h4
    unfold getMoney
    rw [h4]
  obtain ⟨b, f, a, fo, ac, hb, hf, ha, hfo, hac, hr⟩ := hinv
  refine ⟨b, f, a, fo, ac, ?_, ?_, ?_, ?_, ?_, ?_⟩
  · rw [hpres _ (by simp [moneyKeys])]; exact hb
  · rw [hpres _ (by simp [moneyKeys])]; exact hf
  · rw [hpres _ (by simp [moneyKeys])]; exact ha
  · rw [hpres _ (by simp [moneyKeys])]; exact hfo
  · rw [hpres _ (by simp [moneyKeys])]; exact hac
  · rw [hpres _ (by simp [moneyKeys])]; exact hr

theorem cut_cent_eq (z : ℤ) :
    pyRound2 ((z : ℚ) / 100 * (20 / 100))
      = (pyRoundInt ((z : ℚ) / 5) : ℚ) / 100 := by
  have harg : ((z : ℚ) / 100 * (20 / 100)) * 100 = (z : ℚ) / 5 := by ring
  unfold pyRound2
  rw [harg]

theorem cent_max0 (x : ℤ) :
    max (0 : ℚ) ((x : ℚ) / 100) = ((max 0 x : ℤ) : ℚ) / 100 := by
  have h100 : (0 : ℚ) < 100 := by norm_num
  rcases le_total x 0 with h | h
  · have hq : (x : ℚ) / 100 ≤ 0 := by
      apply div_nonpos_of_nonpos_of_nonneg
      · exact_mod_cast h
      · norm_num
    rw [max_eq_left hq, max_eq_left h]
    norm_num
  · have hq : (0 : ℚ) ≤ (x : ℚ) / 100 := by positivity
    rw [max_eq_right hq, max_eq_right h]

theorem br_merge_preserves (sugg : String) (st : PyDict)
    (hwf : stateWF st) (hinv : budgetInvariant st) :
    stateWF (mergeRun st (budget_review_agent sugg st))
    ∧ budgetInvariant (mergeRun st (budget_review_agent sugg st)) := by
  obtain ⟨zb, hgb, hmb, hdb⟩ := moneyReads st hwf "budget" (by simp [moneyKeys])
  obtain ⟨zf, hgf, hmf, hdf⟩ := moneyReads st hwf "flight_cost" (by simp [moneyKeys])
  obtain ⟨za, hga, hma, hda⟩ := moneyReads st hwf "accommodation_cost" (by simp [moneyKeys])
  obtain ⟨zfo, hgfo, hmfo, hdfo⟩ := moneyReads st hwf "food_cost" (by simp [moneyKeys])
  obtain ⟨zact, hgact, hmact, hdact⟩ := moneyReads st hwf "activities_cost" (by simp [moneyKeys])
  obtain ⟨zr, hgr, hmr, hdr⟩ := moneyReads st hwf "remaining_budget" (by simp [moneyKeys])
  by_cases hsign : (0 : ℚ) ≤ (zr : ℚ) / 100
  · have hout : budget_review_agent sugg st
        = .dict [("is_budget_met", .bool true),
                 ("messages", .list [.str "Budget review skipped: plan already within budget."]),
                 ("next_action", .str "ITINERARY_PLANNER")] := by
      unfold budget_review_agent
      rcases hdr with ⟨hnone, hzero⟩ | hsome
      · rw [hnone]
        norm_num
      · rw [hsome]
        simp only [toNum, Option.getD_some]
        rw [if_pos hsign]
    rw [hout]
    constructor
    · apply mergeRun_stateWF st _ hwf
      apply partialMoneyWF_no_money
      intro kv hkv
      rcases List.mem_cons.mp hkv with h1 | h2
      · rw [h1]; simp [moneyKeys]
      · rcases List.mem_cons.mp h2 with h3 | h4
        · rw [h3]; simp [moneyKeys]
        · rw [List.mem_singleton.mp h4]; simp [moneyKeys]
    · apply merge_no_money_preserves_inv st _ hwf hinv
      intro k hk
      simp only [moneyKeys, List.mem_cons, List.mem_singleton] at hk
      rcases hk with rfl | rfl | rfl | rfl | rfl | rfl | h
      · rfl
      · rfl
      · rfl
      · rfl
      · rfl
      · rfl
      · cases h
  · -- over budget: the remaining key must be present
    obtain ⟨b, f, a, fo, ac, hb2, hf2, ha2, hfo2, hac2, hr2⟩ := hinv
    have hbe : b = (zb : ℚ) / 100 := (Option.some.inj (hgb.symm.trans hb2)).symm
    have hfe : f = (zf : ℚ) / 100 := (Option.some.inj (hgf.symm.trans hf2)).symm
    have hae : a = (za : ℚ) / 100 := (Option.some.inj (hga.symm.trans ha2)).symm
    have hfoe : fo = (zfo : ℚ) / 100 := (Option.some.inj (hgfo.symm.trans hfo2)).symm
    have hace : ac = (zact : ℚ) / 100 := (Option.some.inj (hgact.symm.trans hac2)).symm
    have hrel : (zr : ℚ) / 100
        = (zb : ℚ) / 100 - ((zf : ℚ) / 100 + (za : ℚ) / 100 + (zfo : ℚ) / 100
          + (zact : ℚ) / 100) := by
      have h5 := (Option.some.inj (hgr.symm.trans hr2)).symm
      rw [← hbe, ← hfe, ← hae, ← hfoe, ← hace]
      exact h5.symm
    rcases hdr with ⟨hnone, hzero⟩ | hsome
    · rw [hzero] at hsign
      norm_num at hsign
    obtain ⟨hmoney, ⟨ms, hms⟩, ⟨tr, htr⟩⟩ := hwf
    by_cases hc1 : ((za : ℚ) / 100 ≤ (zf : ℚ) / 100 ∧ (zact : ℚ) / 100 ≤ (zf : ℚ) / 100)
    · have hout : budget_review_agent sugg st
          = .dict [("flight_cost",
                .num ((max 0 (zf - pyRoundInt ((zf : ℚ) / 5)) : ℤ) / 100 : ℚ)),
              ("suggestion", .str sugg),
              ("action", .str "Reduced largest expense by 20 percent."),
              ("remaining_budget",
                .num ((zb - (max 0 (zf - pyRoundInt ((zf : ℚ) / 5)) + za + zact + zfo) : ℤ)
                  / 100 : ℚ)),
              ("is_budget_met", .bool (decide (((zb - (max 0 (zf - pyRoundInt ((zf : ℚ) / 5))
                  + za + zact + zfo) : ℤ) : ℚ) / 100 ≥ 0))),
              ("messages", .list [.str "Budget review applied.",
                                  .str "Recomputed remaining budget."]),
              ("next_action", .str (if (((zb - (max 0 (zf - pyRoundInt ((zf : ℚ) / 5))
                  + za + zact + zfo) : ℤ) : ℚ) / 100 ≥ 0)
                  then "ITINERARY_PLANNER" else "BUDGET_REVIEW"))] := by
        unfold budget_review_agent
        rw [hsome]
        simp only [toNum, Option.getD_some]
        rw [if_neg hsign]
        rw [hmf, hma, hmact, hmfo, hmb]
        have hc : ((zf : ℚ) / 100 ≥ (za : ℚ) / 100 ∧ (zf : ℚ) / 100 ≥ (zact : ℚ) / 100) := hc1
        simp only [ge_iff_le, hc1, and_self, if_true, if_pos hc]
        have hnewCost : max 0 ((zf : ℚ) / 100 - pyRound2 ((zf : ℚ) / 100 * (20 / 100)))
            = ((max 0 (zf - pyRoundInt ((zf : ℚ) / 5)) : ℤ) : ℚ) / 100 := by
          rw [cut_cent_eq]
          have hz : (zf : ℚ) / 100 - (pyRoundInt ((zf : ℚ) / 5) : ℚ) / 100
              = ((zf - pyRoundInt ((zf : ℚ) / 5) : ℤ) : ℚ) / 100 := by
            push_cast
            ring
          rw [hz, cent_max0]
        simp only [hnewCost]
        simp only [String.reduceEq, if_false, if_true, reduceIte]
        have harg : (zb : ℚ) / 100 - (((max 0 (zf - pyRoundInt ((zf : ℚ) / 5)) : ℤ) : ℚ) / 100
            + (za : ℚ) / 100 + (zact : ℚ) / 100 + (zfo : ℚ) / 100)
            = ((zb - (max 0 (zf - pyRoundInt ((zf : ℚ) / 5)) + za + zact + zfo) : ℤ) : ℚ) / 100 := by
          push_cast
          ring
        rw [harg, pyRound2_cent_id]
        simp only [decide_eq_true_eq]
      rw [hout]
      constructor
      · apply mergeRun_stateWF st _ ⟨hmoney, ⟨ms, hms⟩, ⟨tr, htr⟩⟩
        intro its k v heq hmem hk
        cases heq
        simp only [List.mem_cons, List.not_mem_nil, or_false, Prod.mk.injEq] at hmem
        rcases hmem with ⟨rfl, rfl⟩ | ⟨rfl, rfl⟩ | ⟨rfl, rfl⟩ | ⟨rfl, rfl⟩
          | ⟨rfl, rfl⟩ | ⟨rfl, rfl⟩ | ⟨rfl, rfl⟩
        · exact cent_num_val _
        · simp [moneyKeys] at hk
        · simp [moneyKeys] at hk
        · exact cent_num_val _
        · simp [moneyKeys] at hk
        · simp [moneyKeys] at hk
        · simp [moneyKeys] at hk
      · obtain ⟨st1, dm, dt, hrun, h1s, h2s, h3s⟩ := mergeItems_spec
          [("flight_cost",
                .num ((max 0 (zf - pyRoundInt ((zf : ℚ) / 5)) : ℤ) / 100 : ℚ)),
              ("suggestion", .str sugg),
              ("action", .str "Reduced largest expense by 20 percent."),
              ("remaining_budget",
                .num ((zb - (max 0 (zf - pyRoundInt ((zf : ℚ) / 5)) + za + zact + zfo) : ℤ)
                  / 100 : ℚ)),
              ("is_budget_met", .bool (decide (((zb - (max 0 (zf - pyRoundInt ((zf : ℚ) / 5))
                  + za + zact + zfo) : ℤ) : ℚ) / 100 ≥ 0))),
              ("messages", .list [.str "Budget review applied.",
                                  .str "Recomputed remaining budget."]),
              ("next_action", .str (if (((zb - (max 0 (zf - pyRoundInt ((zf : ℚ) / 5))
                  + za + zact + zfo) : ℤ) : ℚ) / 100 ≥ 0)
                  then "ITINERARY_PLANNER" else "BUDGET_REVIEW"))] st ms tr hms htr
        have hm1 : mergeRun st (.dict
            [("flight_cost",
                .num ((max 0 (zf - pyRoundInt ((zf : ℚ) / 5)) : ℤ) / 100 : ℚ)),
              ("suggestion", .str sugg),
              ("action", .str "Reduced largest expense by 20 percent."),
              ("remaining_budget",
                .num ((zb - (max 0 (zf - pyRoundInt ((zf : ℚ) / 5)) + za + zact + zfo) : ℤ)
                  / 100 : ℚ)),
              ("is_budget_met", .bool (decide (((zb - (max 0 (zf - pyRoundInt ((zf : ℚ) / 5))
                  + za + zact + zfo) : ℤ) : ℚ) / 100 ≥ 0))),
              ("messages", .list [.str "Budget review applied.",
                                  .str "Recomputed remaining budget."]),
              ("next_action", .str (if (((zb - (max 0 (zf - pyRoundInt ((zf : ℚ) / 5))
                  + za + zact + zfo) : ℤ) : ℚ) / 100 ≥ 0)
                  then "ITINERARY_PLANNER" else "BUDGET_REVIEW"))]) = st1 := by
          unfold mergeRun merge_partial_state
          dsimp only
          rw [hrun]
          rfl
        rw [hm1]
        have hBudget : getMoney st1 "budget" = some ((zb : ℚ) / 100) := by
          have h4 := h3s "budget" (by decide) (by decide)
          simp only [lastBind, String.reduceEq, reduceIte] at h4
          unfold getMoney
          rw [h4]
          exact hgb
        have hFlight : getMoney st1 "flight_cost"
            = some (((max 0 (zf - pyRoundInt ((zf : ℚ) / 5)) : ℤ) : ℚ) / 100) := by
          have h4 := h3s "flight_cost" (by decide) (by decide)
          simp only [lastBind, String.reduceEq, reduceIte] at h4
          unfold getMoney
          rw [h4]
          rfl
        have hAcc : getMoney st1 "accommodation_cost" = some ((za : ℚ) / 100) := by
          have h4 := h3s "accommodation_cost" (by decide) (by decide)
          simp only [lastBind, String.reduceEq, reduceIte] at h4
          unfold getMoney
          rw [h4]
          exact hga
        have hFood : getMoney st1 "food_cost" = some ((zfo : ℚ) / 100) := by
          have h4 := h3s "food_cost" (by decide) (by decide)
          simp only [lastBind, String.reduceEq, reduceIte] at h4
          unfold getMoney
          rw [h4]
          exact hgfo
        have hAct : getMoney st1 "activities_cost" = some ((zact : ℚ) / 100) := by
          have h4 := h3s "activities_cost" (by decide) (by decide)
          simp only [lastBind, String.reduceEq, reduceIte] at h4
          unfold getMoney
          rw [h4]
          exact hgact
        have hRem : getMoney st1 "remaining_budget"
            = some (((zb - (max 0 (zf - pyRoundInt ((zf : ℚ) / 5)) + za + zact + zfo) : ℤ) : ℚ)
              / 100) := by
          have h4 := h3s "remaining_budget" (by decide) (by decide)
          simp only [lastBind, String.reduceEq, reduceIte] at h4
          unfold getMoney
          rw [h4]
          rfl
        refine ⟨(zb : ℚ) / 100, ((max 0 (zf - pyRoundInt ((zf : ℚ) / 5)) : ℤ) : ℚ) / 100,
          (za : ℚ) / 100, (zfo : ℚ) / 100, (zact : ℚ) / 100,
          hBudget, hFlight, hAcc, hFood, hAct, ?_⟩
        rw [hRem]
        congr 1
        push_cast
        ring
    · by_cases hc2 : ((zact : ℚ) / 100 ≤ (za : ℚ) / 100)
      · have hout : budget_review_agent sugg st
            = .dict [("accommodation_cost",
                  .num ((max 0 (za - pyRoundInt ((za : ℚ) / 5)) : ℤ) / 100 : ℚ)),
                ("suggestion", .str sugg),
                ("action", .str "Reduced largest expense by 20 percent."),
                ("remaining_budget",
                  .num ((zb - (zf + max 0 (za - pyRoundInt ((za : ℚ) / 5)) + zact + zfo) : ℤ)
                    / 100 : ℚ)),
                ("is_budget_met", .bool (decide (((zb - (zf + max 0 (za - pyRoundInt ((za : ℚ) / 5))
                    + zact + zfo) : ℤ) : ℚ) / 100 ≥ 0))),
                ("messages", .list [.str "Budget review applied.",
                                    .str "Recomputed remaining budget."]),
                ("next_action", .str (if (((zb - (zf + max 0 (za - pyRoundInt ((za : ℚ) / 5))
                    + zact + zfo) : ℤ) : ℚ) / 100 ≥ 0)
                    then "ITINERARY_PLANNER" else "BUDGET_REVIEW"))] := by
          unfold budget_review_agent
          rw [hsome]
          simp only [toNum, Option.getD_some]
          rw [if_neg hsign]
          rw [hmf, hma, hmact, hmfo, hmb]
          simp only [ge_iff_le, if_neg hc1, if_pos hc2]
          have hnewCost : max 0 ((za : ℚ) / 100 - pyRound2 ((za : ℚ) / 100 * (20 / 100)))
              = ((max 0 (za - pyRoundInt ((za : ℚ) / 5)) : ℤ) : ℚ) / 100 := by
            rw [cut_cent_eq]
            have hz : (za : ℚ) / 100 - (pyRoundInt ((za : ℚ) / 5) : ℚ) / 100
                = ((za - pyRoundInt ((za : ℚ) / 5) : ℤ) : ℚ) / 100 := by
              push_cast
              ring
            rw [hz, cent_max0]
          simp only [hnewCost]
          simp only [String.reduceEq, if_false, if_true, reduceIte]
          have harg : (zb : ℚ) / 100 - ((zf : ℚ) / 100
              + ((max 0 (za - pyRoundInt ((za : ℚ) / 5)) : ℤ) : ℚ) / 100
              + (zact : ℚ) / 100 + (zfo : ℚ) / 100)
              = ((zb - (zf + max 0 (za - pyRoundInt ((za : ℚ) / 5)) + zact + zfo) : ℤ) : ℚ)
                / 100 := by
            push_cast
            ring
          rw [harg, pyRound2_cent_id]
          simp only [decide_eq_true_eq]
        rw [hout]
        constructor
        · apply mergeRun_stateWF st _ ⟨hmoney, ⟨ms, hms⟩, ⟨tr, htr⟩⟩
          intro its k v heq hmem hk
          cases heq
          simp only [List.mem_cons, List.not_mem_nil, or_false, Prod.mk.injEq] at hmem
          rcases hmem with ⟨rfl, rfl⟩ | ⟨rfl, rfl⟩ | ⟨rfl, rfl⟩ | ⟨rfl, rfl⟩
            | ⟨rfl, rfl⟩ | ⟨rfl, rfl⟩ | ⟨rfl, rfl⟩
          · exact cent_num_val _
          · simp [moneyKeys] at hk
          · simp [moneyKeys] at hk
          · exact cent_num_val _
          · simp [moneyKeys] at hk
          · simp [moneyKeys] at hk
          · simp [moneyKeys] at hk
        · obtain ⟨st1, dm, dt, hrun, h1s, h2s, h3s⟩ := mergeItems_spec
            [("accommodation_cost",
                  .num ((max 0 (za - pyRoundInt ((za : ℚ) / 5)) : ℤ) / 100 : ℚ)),
                ("suggestion", .str sugg),
                ("action", .str "Reduced largest expense by 20 percent."),
                ("remaining_budget",
                  .num ((zb - (zf + max 0 (za - pyRoundInt ((za : ℚ) / 5)) + zact + zfo) : ℤ)
                    / 100 : ℚ)),
                ("is_budget_met", .bool (decide (((zb - (zf + max 0 (za - pyRoundInt ((za : ℚ) / 5))
                    + zact + zfo) : ℤ) : ℚ) / 100 ≥ 0))),
                ("messages", .list [.str "Budget review applied.",
                                    .str "Recomputed remaining budget."]),
                ("next_action", .str (if (((zb - (zf + max 0 (za - pyRoundInt ((za : ℚ) / 5))
                    + zact + zfo) : ℤ) : ℚ) / 100 ≥ 0)
                    then "ITINERARY_PLANNER" else "BUDGET_REVIEW"))] st ms tr hms htr
          have hm1 : mergeRun st (.dict
              [("accommodation_cost",
                  .num ((max 0 (za - pyRoundInt ((za : ℚ) / 5)) : ℤ) / 100 : ℚ)),
                ("suggestion", .str sugg),
                ("action", .str "Reduced largest expense by 20 percent."),
                ("remaining_budget",
                  .num ((zb - (zf + max 0 (za - pyRoundInt ((za : ℚ) / 5)) + zact + zfo) : ℤ)
                    / 100 : ℚ)),
                ("is_budget_met", .bool (decide (((zb - (zf + max 0 (za - pyRoundInt ((za : ℚ) / 5))
                    + zact + zfo) : ℤ) : ℚ) / 100 ≥ 0))),
                ("messages", .list [.str "Budget review applied.",
                                    .str "Recomputed remaining budget."]),
                ("next_action", .str (if (((zb - (zf + max 0 (za - pyRoundInt ((za : ℚ) / 5))
                    + zact + zfo) : ℤ) : ℚ) / 100 ≥ 0)
                    then "ITINERARY_PLANNER" else "BUDGET_REVIEW"))]) = st1 := by
            unfold mergeRun merge_partial_state
            dsimp only
            rw [hrun]
            rfl
          rw [hm1]
          have hBudget : getMoney st1 "budget" = some ((zb : ℚ) / 100) := by
            have h4 := h3s "budget" (by decide) (by decide)
            simp only [lastBind, String.reduceEq, reduceIte] at h4
            unfold getMoney
            rw [h4]
            exact hgb
          have hFlight : getMoney st1 "flight_cost" = some ((zf : ℚ) / 100) := by
            have h4 := h3s "flight_cost" (by decide) (by decide)
            simp only [lastBind, String.reduceEq, reduceIte] at h4
            unfold getMoney
            rw [h4]
            exact hgf
          have hAcc : getMoney st1 "accommodation_cost"
              = some (((max 0 (za - pyRoundInt ((za : ℚ) / 5)) : ℤ) : ℚ) / 100) := by
            have h4 := h3s "accommodation_cost" (by decide) (by decide)
            simp only [lastBind, String.reduceEq, reduceIte] at h4
            unfold getMoney
            rw [h4]
            rfl
          have hFood : getMoney st1 "food_cost" = some ((zfo : ℚ) / 100) := by
            have h4 := h3s "food_cost" (by decide) (by decide)
            simp only [lastBind, String.reduceEq, reduceIte] at h4
            unfold getMoney
            rw [h4]
            exact hgfo
          have hAct : getMoney st1 "activities_cost" = some ((zact : ℚ) / 100) := by
            have h4 := h3s "activities_cost" (by decide) (by decide)
            simp only [lastBind, String.reduceEq, reduceIte] at h4
            unfold getMoney
            rw [h4]
            exact hgact
          have hRem : getMoney st1 "remaining_budget"
              = some (((zb - (zf + max 0 (za - pyRoundInt ((za : ℚ) / 5)) + zact + zfo) : ℤ) : ℚ)
                / 100) := by
            have h4 := h3s "remaining_budget" (by decide) (by decide)
            simp only [lastBind, String.reduceEq, reduceIte] at h4
            unfold getMoney
            rw [h4]
            rfl
          refine ⟨(zb : ℚ) / 100, (zf : ℚ) / 100,
            ((max 0 (za - pyRoundInt ((za : ℚ) / 5)) : ℤ) : ℚ) / 100,
            (zfo : ℚ) / 100, (zact : ℚ) / 100,
            hBudget, hFlight, hAcc, hFood, hAct, ?_⟩
          rw [hRem]
          congr 1
          push_cast
          ring
      · have hout : budget_review_agent sugg st
            = .dict [("activities_cost",
                  .num ((max 0 (zact - pyRoundInt ((zact : ℚ) / 5)) : ℤ) / 100 : ℚ)),
                ("suggestion", .str sugg),
                ("action", .str "Reduced largest expense by 20 percent."),
                ("remaining_budget",
                  .num ((zb - (zf + za + max 0 (zact - pyRoundInt ((zact : ℚ) / 5)) + zfo) : ℤ)
                    / 100 : ℚ)),
                ("is_budget_met", .bool (decide (((zb - (zf + za
                    + max 0 (zact - pyRoundInt ((zact : ℚ) / 5)) + zfo) : ℤ) : ℚ) / 100 ≥ 0))),
                ("messages", .list [.str "Budget review applied.",
                                    .str "Recomputed remaining budget."]),
                ("next_action", .str (if (((zb - (zf + za
                    + max 0 (zact - pyRoundInt ((zact : ℚ) / 5)) + zfo) : ℤ) : ℚ) / 100 ≥ 0)
                    then "ITINERARY_PLANNER" else "BUDGET_REVIEW"))] := by
          unfold budget_review_agent
          rw [hsome]
          simp only [toNum, Option.getD_some]
          rw [if_neg hsign]
          rw [hmf, hma, hmact, hmfo, hmb]
          simp only [ge_iff_le, if_neg hc1, if_neg hc2]
          have hnewCost : max 0 ((zact : ℚ) / 100 - pyRound2 ((zact : ℚ) / 100 * (20 / 100)))
              = ((max 0 (zact - pyRoundInt ((zact : ℚ) / 5)) : ℤ) : ℚ) / 100 := by
            rw [cut_cent_eq]
            have hz : (zact : ℚ) / 100 - (pyRoundInt ((zact : ℚ) / 5) : ℚ) / 100
                = ((zact - pyRoundInt ((zact : ℚ) / 5) : ℤ) : ℚ) / 100 := by
              push_cast
              ring
            rw [hz, cent_max0]
          simp only [hnewCost]
          simp only [String.reduceEq, if_false, if_true, reduceIte]
          have harg : (zb : ℚ) / 100 - ((zf : ℚ) / 100 + (za : ℚ) / 100
              + ((max 0 (zact - pyRoundInt ((zact : ℚ) / 5)) : ℤ) : ℚ) / 100
              + (zfo : ℚ) / 100)
              = ((zb - (zf + za + max 0 (zact - pyRoundInt ((zact : ℚ) / 5)) + zfo) : ℤ) : ℚ)
                / 100 := by
            push_cast
            ring
          rw [harg, pyRound2_cent_id]
          simp only [decide_eq_true_eq]
        rw [hout]
        constructor
        · apply mergeRun_stateWF st _ ⟨hmoney, ⟨ms, hms⟩, ⟨tr, htr⟩⟩
          intro its k v heq hmem hk
          cases heq
          simp only [List.mem_cons, List.not_mem_nil, or_false, Prod.mk.injEq] at hmem
          rcases hmem with ⟨rfl, rfl⟩ | ⟨rfl, rfl⟩ | ⟨rfl, rfl⟩ | ⟨rfl, rfl⟩
            | ⟨rfl, rfl⟩ | ⟨rfl, rfl⟩ | ⟨rfl, rfl⟩
          · exact cent_num_val _
          · simp [moneyKeys] at hk
          · simp [moneyKeys] at hk
          · exact cent_num_val _
          · simp [moneyKeys] at hk
          · simp [moneyKeys] at hk
          · simp [moneyKeys] at hk
        · obtain ⟨st1, dm, dt, hrun, h1s, h2s, h3s⟩ := mergeItems_spec
            [("activities_cost",
                  .num ((max 0 (zact - pyRoundInt ((zact : ℚ) / 5)) : ℤ) / 100 : ℚ)),
                ("suggestion", .str sugg),
                ("action", .str "Reduced largest expense by 20 percent."),
                ("remaining_budget",
                  .num ((zb - (zf + za + max 0 (zact - pyRoundInt ((zact : ℚ) / 5)) + zfo) : ℤ)
                    / 100 : ℚ)),
                ("is_budget_met", .bool (decide (((zb - (zf + za
                    + max 0 (zact - pyRoundInt ((zact : ℚ) / 5)) + zfo) : ℤ) : ℚ) / 100 ≥ 0))),
                ("messages", .list [.str "Budget review applied.",
                                    .str "Recomputed remaining budget."]),
                ("next_action", .str (if (((zb - (zf + za
                    + max 0 (zact - pyRoundInt ((zact : ℚ) / 5)) + zfo) : ℤ) : ℚ) / 100 ≥ 0)
                    then "ITINERARY_PLANNER" else "BUDGET_REVIEW"))] st ms tr hms htr
          have hm1 : mergeRun st (.dict
              [("activities_cost",
                  .num ((max 0 (zact - pyRoundInt ((zact : ℚ) / 5)) : ℤ) / 100 : ℚ)),
                ("suggestion", .str sugg),
                ("action", .str "Reduced largest expense by 20 percent."),
                ("remaining_budget",
                  .num ((zb - (zf + za + max 0 (zact - pyRoundInt ((zact : ℚ) / 5)) + zfo) : ℤ)
                    / 100 : ℚ)),
                ("is_budget_met", .bool (decide (((zb - (zf + za
                    + max 0 (zact - pyRoundInt ((zact : ℚ) / 5)) + zfo) : ℤ) : ℚ) / 100 ≥ 0))),
                ("messages", .list [.str "Budget review applied.",
                                    .str "Recomputed remaining budget."]),
                ("next_action", .str (if (((zb - (zf + za
                    + max 0 (zact - pyRoundInt ((zact : ℚ) / 5)) + zfo) : ℤ) : ℚ) / 100 ≥ 0)
                    then "ITINERARY_PLANNER" else "BUDGET_REVIEW"))]) = st1 := by
            unfold mergeRun merge_partial_state
            dsimp only
            rw [hrun]
            rfl
          rw [hm1]
          have hBudget : getMoney st1 "budget" = some ((zb : ℚ) / 100) := by
            have h4 := h3s "budget" (by decide) (by decide)
            simp only [lastBind, String.reduceEq, reduceIte] at h4
            unfold getMoney
            rw [h4]
            exact hgb
          have hFlight : getMoney st1 "flight_cost" = some ((zf : ℚ) / 100) := by
            have h4 := h3s "flight_cost" (by decide) (by decide)
            simp only [lastBind, String.reduceEq, reduceIte] at h4
            unfold getMoney
            rw [h4]
            exact hgf
          have hAcc : getMoney st1 "accommodation_cost" = some ((za : ℚ) / 100) := by
            have h4 := h3s "accommodation_cost" (by decide) (by decide)
            simp only [lastBind, String.reduceEq, reduceIte] at h4
            unfold getMoney
            rw [h4]
            exact hga
          have hFood : getMoney st1 "food_cost" = some ((zfo : ℚ) / 100) := by
            have h4 := h3s "food_cost" (by decide) (by decide)
            simp only [lastBind, String.reduceEq, reduceIte] at h4
            unfold getMoney
            rw [h4]
            exact hgfo
          have hAct : getMoney st1 "activities_cost"
              = some (((max 0 (zact - pyRoundInt ((zact : ℚ) / 5)) : ℤ) : ℚ) / 100) := by
            have h4 := h3s "activities_cost" (by decide) (by decide)
            simp only [lastBind, String.reduceEq, reduceIte] at h4
            unfold getMoney
            rw [h4]
            rfl
          have hRem : getMoney st1 "remaining_budget"
              = some (((zb - (zf + za + max 0 (zact - pyRoundInt ((zact : ℚ) / 5)) + zfo) : ℤ) : ℚ)
                / 100) := by
            have h4 := h3s "remaining_budget" (by decide) (by decide)
            simp only [lastBind, String.reduceEq, reduceIte] at h4
            unfold getMoney
            rw [h4]
            rfl
          refine ⟨(zb : ℚ) / 100, (zf : ℚ) / 100, (za : ℚ) / 100, (zfo : ℚ) / 100,
            ((max 0 (zact - pyRoundInt ((zact : ℚ) / 5)) : ℤ) : ℚ) / 100,
            hBudget, hFlight, hAcc, hFood, hAct, ?_⟩
          rw [hRem]
          congr 1
          push_cast
          ring

/-! ## Claim C2: the exact budget identity at every merge point -/

/-- The orchestrator loop preserves run-state well-formedness together with
the exact budget identity, at the result state and at every logged
merge-point state, for any environment whose agents return cent-valued
monetary fields. -/
theorem run_budget_invariant (env : AgentEnv) (hwfe : envMoneyWF env) :
    ∀ (r : ℕ) (toRun : List PlanTask) (plan : Plan) (st : PyDict)
      (log : List PyDict) (ctr a : ℕ),
      stateWF st ∧ budgetInvariant st →
      (∀ s ∈ log, stateWF s ∧ budgetInvariant s) →
      (stateWF (orchestrate env r toRun plan st log ctr a).1
        ∧ budgetInvariant (orchestrate env r toRun plan st log ctr a).1)
      ∧ ∀ s ∈ (orchestrate env r toRun plan st log ctr a).2.1,
          stateWF s ∧ budgetInvariant s := by
  have hitin : ∀ s, (stateWF s ∧ budgetInvariant s) →
      stateWF (mergeRun s (itineraryPartial env.draft))
      ∧ budgetInvariant (mergeRun s (itineraryPartial env.draft)) := by
    intro s hP
    constructor
    · exact mergeRun_stateWF s _ hP.1 (itineraryPartial_wf env.draft)
    · show budgetInvariant (mergeRun s (.dict
        [("itinerary_draft", .str env.draft),
         ("messages", .list [.str "Itinerary draft completed."]),
         ("next_action", .str "FINISH")]))
      apply merge_no_money_preserves_inv s _ hP.1 hP.2
      intro k hk
      simp only [moneyKeys, List.mem_cons, List.not_mem_nil, or_false] at hk
      rcases hk with rfl | rfl | rfl | rfl | rfl | rfl
      · rfl
      · rfl
      · rfl
      · rfl
      · rfl
      · rfl
  intro r toRun plan st log ctr a hP hlog
  have h := orchestrate_preserves (fun s => stateWF s ∧ budgetInvariant s) env
    (fun n s node hs => recompute_establishes _
      (mergeRun_stateWF s _ hs.1 (syncOut_wf node _ (hwfe.1 n s))))
    (fun n s batch hs => runBatch_wf_inv env hwfe n s batch hs)
    (fun s hs => br_merge_preserves env.sugg s hs.1 hs.2)
    hitin
    r toRun plan st log ctr a hP hlog
  exact ⟨h.1, h.2.1⟩

/-- C2: after every merge point — the initial synchronous flight step, every
parallel-batch merge, every synchronous-task merge, and the final
budget-review and itinerary merges — the run state satisfies
remaining_budget = budget − (flight_cost + accommodation_cost + food_cost +
activities_cost) exactly.  "Regardless of merge order" is captured by the
arbitrary batch-collection oracle `env.collect` (constrained only to return
submitted results, in any order, in `envMoneyWF`).  Hypotheses: the agents
return cent-valued monetary fields (they all return `round(..., 2)` costs),
the plan is non-empty (an empty plan delegates to the external legacy
pipeline), and the initialized state is well-formed and satisfies the
identity (as it does for a fresh two-decimal budget input, see the witness).
The conclusion covers the final state and every state in the merge-point
log. -/
theorem orchestrator_budget_invariant_at_merge_points (env : AgentEnv)
    (plan : Plan) (st0 : PyDict)
    (hwfe : envMoneyWF env) (hne : plan.tasks ≠ [])
    (hwf0 : stateWF (initState st0)) (hinv0 : budgetInvariant (initState st0)) :
    budgetInvariant (create_and_run_planner env plan st0).1
    ∧ ∀ s ∈ (create_and_run_planner env plan st0).2.1, budgetInvariant s := by
  unfold create_and_run_planner
  rcases htasks : plan.tasks with _ | ⟨t, rest⟩
  · exact (hne htasks).elim
  · dsimp only
    by_cases hfl : t.node = "FLIGHT_AGENT"
    · rw [if_pos hfl]
      have hst2 := recompute_establishes
        (mergeRun (initState st0) (flightOut (env.outcome 0 (initState st0))))
        (mergeRun_stateWF _ _ hwf0 (flightOut_wf _ (hwfe.1 0 _)))
      have h := run_budget_invariant env hwfe MAX_REPLANS rest plan
        (recompute (mergeRun (initState st0) (flightOut (env.outcome 0 (initState st0)))))
        [recompute (mergeRun (initState st0) (flightOut (env.outcome 0 (initState st0))))]
        1 0 hst2
        (by intro s hs; rw [List.mem_singleton.mp hs]; exact hst2)
      exact ⟨h.1.2, fun s hs => (h.2 s hs).2⟩
    · rw [if_neg hfl]
      have h := run_budget_invariant env hwfe MAX_REPLANS (t :: rest) plan
        (initState st0) [] 0 0 ⟨hwf0, hinv0⟩ (by intro s hs; cases hs)
      exact ⟨h.1.2, fun s hs => (h.2 s hs).2⟩

/-- Witness for C2 at a concrete environment, plan and initial state. -/
theorem orchestrator_budget_invariant_at_merge_points_witness :
    budgetInvariant (create_and_run_planner
      { outcome := fun _ _ => .ok (.dict
          [("messages", .list [.str "ok"]), ("next_action", .str "ITINERARY_PLANNER")])
        collect := fun _ l => l
        replanFn := fun _ _ p => p
        sugg := "s"
        draft := "d" }
      { plan_id := "p", tasks := [⟨"t1", "TOTAL_COST_CHECK", [], false, "x", "y"⟩] }
      [("budget", .num 1000), ("remaining_budget", .num 1000),
       ("messages", .list []), ("trace", .list [])]).1
    ∧ ∀ s ∈ (create_and_run_planner
      { outcome := fun _ _ => .ok (.dict
          [("messages", .list [.str "ok"]), ("next_action", .str "ITINERARY_PLANNER")])
        collect := fun _ l => l
        replanFn := fun _ _ p => p
        sugg := "s"
        draft := "d" }
      { plan_id := "p", tasks := [⟨"t1", "TOTAL_COST_CHECK", [], false, "x", "y"⟩] }
      [("budget", .num 1000), ("remaining_budget", .num 1000),
       ("messages", .list []), ("trace", .list [])]).2.1, budgetInvariant s :=
  orchestrator_budget_invariant_at_merge_points _ _ _
    (by
      constructor
      · intro n st
        show partialMoneyWF (PyVal.dict
          [("messages", .list [.str "ok"]), ("next_action", .str "ITINERARY_PLANNER")])
        apply partialMoneyWF_no_money
        intro kv hkv
        rcases List.mem_cons.mp hkv with h1 | h2
        · rw [h1]
          simp [moneyKeys]
        · rw [List.mem_singleton.mp h2]
          simp [moneyKeys]
      · intro n l x hx
        exact hx)
    (List.cons_ne_nil _ _)
    (by
      refine ⟨?_, ⟨[], rfl⟩, ⟨[], rfl⟩⟩
      intro k v h hk
      simp only [moneyKeys, List.mem_cons, List.not_mem_nil, or_false] at hk
      rcases hk with rfl | rfl | rfl | rfl | rfl | rfl
      · rw [show dget (initState
          [("budget", .num 1000), ("remaining_budget", .num 1000),
           ("messages", .list []), ("trace", .list [])]) "budget"
          = some (.num 1000) from rfl] at h
        injection h with h
        subst h
        exact ⟨100000, by norm_num⟩
      · rw [show dget (initState
          [("budget", .num 1000), ("remaining_budget", .num 1000),
           ("messages", .list []), ("trace", .list [])]) "flight_cost"
          = some (.num 0) from rfl] at h
        injection h with h
        subst h
        exact ⟨0, by norm_num⟩
      · rw [show dget (initState
          [("budget", .num 1000), ("remaining_budget", .num 1000),
           ("messages", .list []), ("trace", .list [])]) "accommodation_cost"
          = some (.num 0) from rfl] at h
        injection h with h
        subst h
        exact ⟨0, by norm_num⟩
      · rw [show dget (initState
          [("budget", .num 1000), ("remaining_budget", .num 1000),
           ("messages", .list []), ("trace", .list [])]) "food_cost"
          = some (.num 0) from rfl] at h
        injection h with h
        subst h
        exact ⟨0, by norm_num⟩
      · rw [show dget (initState
          [("budget", .num 1000), ("remaining_budget", .num 1000),
           ("messages", .list []), ("trace", .list [])]) "activities_cost"
          = some (.num 0) from rfl] at h
        injection h with h
        subst h
        exact ⟨0, by norm_num⟩
      · rw [show dget (initState
          [("budget", .num 1000), ("remaining_budget", .num 1000),
           ("messages", .list []), ("trace", .list [])]) "remaining_budget"
          = some (.num 1000) from rfl] at h
        injection h with h
        subst h
        exact ⟨100000, by norm_num⟩)
    (by
      refine ⟨1000, 0, 0, 0, 0, rfl, rfl, rfl, rfl, rfl, ?_⟩
      rw [show getMoney (initState
        [("budget", .num 1000), ("remaining_budget", .num 1000),
         ("messages", .list []), ("trace", .list [])]) "remaining_budget"
        = some 1000 from rfl]
      norm_num)
